import Mathlib

/-!
Verification development for the financial-emails-parser repository.

The Python sources are shallowly embedded: pure functions become Lean
functions, mutable state (the in-memory job store) is threaded explicitly,
Python floats are modelled as exact rationals, and raised exceptions are
modelled with `Except String`.  Calls into external libraries (the `re`
module, the builtin `float` parser, the Gemini model, the Gmail client) are
modelled as oracle parameters, since their behaviour is not part of this
repository's code.
-/

namespace FinEmails

/-! ## Python primitives -/

/-- Round-half-to-even on rationals: the rounding mode of Python's builtin
`round` (floats are modelled as exact rationals here). -/
def roundHalfEven (x : ℚ) : ℤ :=
  let f := ⌊x⌋
  let r := x - f
  if r < 1/2 then f
  else if 1/2 < r then f + 1
  else if f % 2 = 0 then f else f + 1

/-- Python `round(x, nd)` on the rational model of floats. -/
def pyRound (nd : ℕ) (x : ℚ) : ℚ :=
  (roundHalfEven (x * (10 : ℚ) ^ nd) : ℚ) / (10 : ℚ) ^ nd

/-- Python `range(start, stop, step)` as a list; `step = 0` raises
`ValueError`. -/
def pyRange (start stop step : ℤ) : Except String (List ℤ) :=
  if step = 0 then
    .error "ValueError: range() arg 3 must not be zero"
  else if 0 < step then
    .ok ((List.range ((stop - start + step - 1) / step).toNat).map
      (fun k : ℕ => start + step * (k : ℤ)))
  else
    .ok ((List.range ((start - stop + (-step) - 1) / (-step)).toNat).map
      (fun k : ℕ => start + step * (k : ℤ)))

/-- Python slice `l[a:b]` for `0 ≤ a`.  A negative `b` yields `[]` here;
Python's from-the-end indexing for negative bounds is never exercised at the
call sites modelled in this file (their loop indices are nonnegative and a
negative stride produces no indices at all). -/
def pySliceInt {α : Type} (l : List α) (a b : ℤ) : List α :=
  (l.take b.toNat).drop a.toNat

/-- Helper for `pyIn`: does `n` occur as a contiguous sublist of the second
argument? -/
def pyInAux (n : List Char) : List Char → Bool
  | [] => n.isEmpty
  | c :: rest => n.isPrefixOf (c :: rest) || pyInAux n rest

/-- Python substring test `needle in hay`. -/
def pyIn (needle hay : String) : Bool :=
  pyInAux needle.toList hay.toList

/-- Python truthiness of an optional string (`None` and `""` are falsy). -/
def pyTruthyStr : Option String → Bool
  | none => false
  | some s => s ≠ ""

/-- Python truthiness of an optional number (`None` and `0` are falsy). -/
def pyTruthyQ : Option ℚ → Bool
  | none => false
  | some q => q ≠ 0

/-! ## Data model: parsed email records

`services/email_parser.py` produces dictionaries with exactly these keys
(missing fields become empty strings); `from` is renamed `fromAddr` because
`from` is a Lean keyword. -/

structure Email where
  id : String
  internalDate : String
  fromAddr : String
  subject : String
  bodyText : String
deriving Repr, DecidableEq

/-! ## Classifier (`services/email_classifier.py`)

The `re.search(pattern, text, re.IGNORECASE)` calls are modelled by an
oracle `Regex : String → String → Bool` taking the pattern and the text;
the pattern tables themselves are transcribed verbatim. -/

/-- Oracle for `re.search(pattern, text, re.IGNORECASE) is not None`. -/
def Regex := String → String → Bool

inductive EmailRelevance where
  | definitely_financial
  | maybe_financial
  | probably_not_financial
deriving Repr, DecidableEq

def definitely_financial_patterns : List String :=
  [ "\\b(credit card|card|transaction|charged|payment|purchase)\\b.*[₹$€]\\s*\\d+"
  , "\\b(card ending|card.*\\d{4}|xxxx\\d{4}|\\*{4}\\d{4})\\b"
  , "\\b(transaction.*successful|payment.*completed|purchase.*confirmed)\\b"
  , "\\b(statement|monthly statement|billing statement|card statement)\\b"
  , "\\b(swiggy|zomato|amazon|flipkart|uber|ola|paytm|phonepe|gpay)\\b.*[₹$€]\\s*\\d+"
  , "\\b(payment.*received|bill.*paid|auto.*debit|emi.*deducted)\\b"
  , "\\b(available.*limit|credit.*limit|outstanding.*amount|minimum.*due)\\b" ]

def maybe_financial_patterns : List String :=
  [ "\\b(hdfc.*card|icici.*card|sbi.*card|axis.*card|kotak.*card|yes.*bank.*card|citibank.*card)\\b"
  , "\\b(visa|mastercard|rupay|amex|american express)\\b"
  , "\\b(card.*blocked|card.*unblocked|card.*activated|card.*deactivated)\\b"
  , "\\b(reward.*points|cashback|reward.*earned|points.*credited)\\b"
  , "\\b(credit.*limit.*increased|limit.*enhanced|credit.*line)\\b"
  , "\\b(emi|equated monthly installment|convert.*emi|emi.*conversion)\\b"
  , "\\b(card.*used|international.*transaction|online.*transaction|pos.*transaction)\\b"
  , "\\b(otp.*card|cvv|card.*verification|secure.*transaction)\\b"
  , "\\b(due.*date|payment.*due|bill.*generated|statement.*ready)\\b"
  , "\\b(auto.*pay|autopay|scheduled.*payment|standing.*instruction)\\b" ]

def exclude_patterns : List String :=
  [ "\\b(newsletter|unsubscribe|promotional|marketing|advertisement)\\b"
  , "\\b(sale|discount|offer|deal|coupon|cashback offer|mega sale)\\b"
  , "\\b(limited time|hurry|don\x27t miss|exclusive offer|special price)\\b"
  , "\\b(notification|reminder|update|news|blog|article)\\b"
  , "\\b(facebook|twitter|instagram|linkedin|youtube|social)\\b"
  , "\\b(password|login|verification code|2fa)\\b(?!.*card)"
  , "\\b(virus|malware|phishing|spam|suspicious activity)\\b"
  , "\\b(bank transfer|wire transfer|neft|rtgs|imps|upi)\\b(?!.*card)"
  , "\\b(fixed deposit|fd|savings|salary credit|bonus credit)\\b"
  , "\\b(wallet|digital wallet|paytm wallet|phonepe wallet)\\b(?!.*card)"
  , "\\b(electricity bill|gas bill|water bill|internet bill|mobile bill)\\b(?!.*card)"
  , "\\b(mutual fund|sip|systematic|insurance premium|policy)\\b(?!.*card)"
  , "\\b(salary|payroll|bonus|hr|human resources)\\b(?!.*card)" ]

/-- `f"{subject} {from} {bodyText[:200]}".lower()` -/
def classificationText (email : Email) : String :=
  (email.subject ++ " " ++ email.fromAddr ++ " " ++ email.bodyText.take 200).toLower

/-- `EmailClassifier.classify_email` -/
def classify_email (search : Regex) (email : Email) : EmailRelevance :=
  let text := classificationText email
  if exclude_patterns.any (fun p => search p text) then
    .probably_not_financial
  else if definitely_financial_patterns.any (fun p => search p text) then
    .definitely_financial
  else if maybe_financial_patterns.any (fun p => search p text) then
    .maybe_financial
  else
    .probably_not_financial

structure ClassifiedEmails where
  definitely_financial : List Email
  maybe_financial : List Email
  probably_not : List Email
deriving Repr, DecidableEq

/-- `EmailClassifier.classify_emails_batch`: the loop appends each email to
the bucket of its classification. -/
def classify_emails_batch (search : Regex) (emails : List Email) : ClassifiedEmails :=
  emails.foldl
    (fun acc email =>
      match classify_email search email with
      | .definitely_financial =>
          { acc with definitely_financial := acc.definitely_financial ++ [email] }
      | .maybe_financial =>
          { acc with maybe_financial := acc.maybe_financial ++ [email] }
      | .probably_not_financial =>
          { acc with probably_not := acc.probably_not ++ [email] })
    ⟨[], [], []⟩

structure ClassificationStats where
  total_emails : ℕ
  definitely_financial : ℕ
  maybe_financial : ℕ
  probably_not : ℕ
  will_process_with_ai : ℕ
  ai_processing_reduction : ℚ
deriving Repr, DecidableEq

/-- `EmailClassifier.get_classification_stats` -/
def get_classification_stats (c : ClassifiedEmails) : ClassificationStats :=
  let total := c.definitely_financial.length + c.maybe_financial.length +
    c.probably_not.length
  { total_emails := total
    definitely_financial := c.definitely_financial.length
    maybe_financial := c.maybe_financial.length
    probably_not := c.probably_not.length
    will_process_with_ai := c.definitely_financial.length + c.maybe_financial.length
    ai_processing_reduction :=
      if 0 < total then pyRound 1 ((c.probably_not.length : ℚ) / total * 100) else 0 }

/-! ## Insight records (`services/intelligent_extractor.py`)

The extractor produces dictionaries of optional sub-records.  Keys whose
value may be missing (or JSON `null`) are modelled with `Option`; `none`
stands for an absent key or a `None` value. -/

structure Transaction where
  merchant : Option String
  amount : Option ℚ
  currency : Option String
  date : Option String
  category : Option String
  transaction_type : Option String
  card_type : Option String
  card_last_four : Option String
  confidence : Option ℚ
deriving Repr, DecidableEq

structure Subscription where
  service : Option String
  amount : Option ℚ
  billing_cycle : Option String
  next_billing : Option String
  charged_to_card : Option Bool
deriving Repr, DecidableEq

structure Travel where
  airline : Option String
  hotel : Option String
  destination : Option String
  travel_date : Option String
  booking_amount : Option ℚ
  charged_to_card : Option Bool
deriving Repr, DecidableEq

structure Bills where
  utility_type : Option String
  provider : Option String
  amount : Option ℚ
  due_date : Option String
  charged_to_card : Option Bool
deriving Repr, DecidableEq

structure CardInfo where
  card_statement : Option Bool
  statement_period : Option String
  total_amount_due : Option ℚ
  minimum_due : Option ℚ
  due_date : Option String
  available_limit : Option ℚ
  rewards_earned : Option ℚ
  cashback_earned : Option ℚ
deriving Repr, DecidableEq

structure Income where
  employer : Option String
  pay_cycle : Option String
  amount : Option ℚ
  date : Option String
deriving Repr, DecidableEq

structure Investment where
  platform : Option String
  instrument : Option String
  amount : Option ℚ
  action : Option String
deriving Repr, DecidableEq

/-- One extracted insight record.  `income` and `investment` are read by the
analytics service (`item.get('income')`, `item.get('investment')`) although
the current extractor never produces them; they are carried as optional
fields. -/
structure InsightRecord where
  transaction : Option Transaction
  subscription : Option Subscription
  travel : Option Travel
  bills : Option Bills
  card_info : Option CardInfo
  income : Option Income
  investment : Option Investment
  is_relevant : Option Bool
  email_id : Option String
deriving Repr, DecidableEq

/-- Oracles for the `re` primitives used by `IntelligentExtractor`:
`search` is `re.search(p, text) is not None`, `findall` is
`re.findall(p, text, re.IGNORECASE)` returning the captured group of each
match, `searchGroup` is `re.search(p, text)` returning group 1 (or `none`
when there is no match). -/
structure ReOracle where
  search : String → String → Bool
  findall : String → String → List String
  searchGroup : String → String → Option String

/-- Oracle for Python's builtin `float(s)`; `none` models a `ValueError`. -/
def PyFloat := String → Option ℚ

/-- Oracle for the Gemini model together with JSON decoding: `single` is one
`generate_content` call plus `json.loads` for `extract_financial_insights`;
`batch` is the combined-prompt call plus `json.loads` for
`_process_batch_with_ai`.  An `.error` models any exception raised while
calling the model or parsing its response. -/
structure AIModel where
  single : String → String → String → Except String InsightRecord
  batch : List Email → Except String (List InsightRecord)

/-- The amount regexes of `IntelligentExtractor._extract_amount`. -/
def amount_patterns : List String :=
  [ "(?:₹|inr|rs\\.?)\\s*([0-9,]+(?:\\.[0-9]\x7b2\x7d)?)"
  , "([0-9,]+(?:\\.[0-9]\x7b2\x7d)?)\\s*(?:₹|inr|rs\\.?)"
  , "(?:amount|total|paid|charged).*?(?:₹|inr|rs\\.?)\\s*([0-9,]+(?:\\.[0-9]\x7b2\x7d)?)" ]

/-- Loop body of `_extract_amount`: try each pattern in turn; only the first
match of a pattern is considered (`matches[0]`), commas are stripped, a
`ValueError` from `float` or an amount outside `[1, 1000000]` moves on to
the next pattern. -/
def extractAmountLoop (findall : String → String → List String)
    (pyfloat : PyFloat) (text : String) : List String → Option ℚ
  | [] => none
  | p :: rest =>
    match findall p text with
    | [] => extractAmountLoop findall pyfloat text rest
    | m :: _ =>
      match pyfloat (m.replace "," "") with
      | none => extractAmountLoop findall pyfloat text rest
      | some amount =>
        if 1 ≤ amount ∧ amount ≤ 1000000 then some amount
        else extractAmountLoop findall pyfloat text rest

/-- `IntelligentExtractor._extract_amount` -/
def extract_amount (re : ReOracle) (pyfloat : PyFloat) (text : String) : Option ℚ :=
  extractAmountLoop re.findall pyfloat text amount_patterns

/-- The known-merchants mapping of `_extract_clean_merchant` (Python dicts
preserve insertion order). -/
def merchant_patterns : List (String × String) :=
  [ ("swiggy", "Swiggy"), ("zomato", "Zomato"), ("amazon", "Amazon")
  , ("flipkart", "Flipkart"), ("uber", "Uber"), ("ola", "Ola")
  , ("paytm", "Paytm"), ("phonepe", "PhonePe"), ("gpay", "Google Pay")
  , ("myntra", "Myntra"), ("bigbasket", "BigBasket"), ("netflix", "Netflix")
  , ("spotify", "Spotify"), ("airtel", "Airtel"), ("jio", "Jio")
  , ("hdfc", "HDFC Bank"), ("icici", "ICICI Bank"), ("sbi", "SBI")
  , ("axis", "Axis Bank") ]

def noise_words : List String :=
  ["you", "your", "rs", "view", "fwd", "account", "alert", "update",
   "payment", "scheduled"]

/-- Last resort of `_extract_clean_merchant`: first capitalized word of the
subject (via `re.findall(r'\b[A-Z][a-z]+\b', subject)`) that is not a noise
word and is longer than 2 characters. -/
def merchantFromWords : List String → Option String
  | [] => none
  | w :: rest =>
    if w.toLower ∉ noise_words ∧ 2 < w.length then some w
    else merchantFromWords rest

/-- `IntelligentExtractor._extract_clean_merchant` -/
def extract_clean_merchant (re : ReOracle) (email_from subject : String) :
    Option String :=
  let text := (email_from ++ " " ++ subject).toLower
  match merchant_patterns.find? (fun (pn : String × String) => pyIn pn.1 text) with
  | some pn => some pn.2
  | none =>
    let fromDomain :=
      match re.searchGroup "@([^.]+)" email_from with
      | some domain0 =>
        let domain := domain0.toLower
        merchant_patterns.find? (fun (pn : String × String) => pyIn pn.1 domain)
      | none => none
    match fromDomain with
    | some pn => some pn.2
    | none => merchantFromWords (re.findall "\\b[A-Z][a-z]+\\b" subject)

/-- The category table of `_categorize_merchant` (dict order preserved). -/
def merchant_categories : List (String × List String) :=
  [ ("Food", ["swiggy", "zomato", "dominos", "kfc", "mcdonald"])
  , ("Shopping", ["amazon", "flipkart", "myntra", "ajio"])
  , ("Transportation", ["uber", "ola", "rapido"])
  , ("Entertainment", ["netflix", "spotify", "hotstar", "prime"])
  , ("Bills", ["airtel", "jio", "bsnl", "electricity", "gas"])
  , ("Healthcare", ["practo", "apollo", "pharmeasy"])
  , ("Travel", ["makemytrip", "goibibo", "cleartrip", "irctc"]) ]

/-- `IntelligentExtractor._categorize_merchant` -/
def categorize_merchant (merchant : String) : String :=
  let merchant_lower := merchant.toLower
  match merchant_categories.find?
      (fun (cm : String × List String) => cm.2.any (fun m => pyIn m merchant_lower)) with
  | some cm => cm.1
  | none => "Other"

def credit_card_keywords : List String :=
  ["card", "credit card", "transaction", "charged", "statement", "payment",
   "purchase", "bill"]

/-- `IntelligentExtractor._fallback_extraction`; `today` models
`datetime.now().strftime('%Y-%m-%d')`. -/
def fallback_extraction (re : ReOracle) (pyfloat : PyFloat) (today : String)
    (email_content email_from subject : String) : InsightRecord :=
  let base : InsightRecord :=
    { transaction := none, subscription := none, travel := none
      bills := none, card_info := none, income := none, investment := none
      is_relevant := some false, email_id := none }
  let text := (subject ++ " " ++ email_content).toLower
  if ¬ credit_card_keywords.any (fun keyword => pyIn keyword text) then base
  else
    let merchant := extract_clean_merchant re email_from subject
    let amount := extract_amount re pyfloat text
    let transaction :=
      if pyTruthyStr merchant ∧ pyTruthyQ amount then
        some { merchant := merchant
               amount := amount
               currency := some "INR"
               date := some today
               category := some (categorize_merchant (merchant.getD ""))
               transaction_type := some "expense"
               card_type := some "credit_card"
               card_last_four := none
               confidence := some (7/10) }
      else none
    { base with is_relevant := some true, transaction := transaction }

/-- `IntelligentExtractor.extract_financial_insights`: with no model handle,
fall back; with a model, any exception from the call or from JSON parsing
falls back to the rule-based extractor. -/
def extract_financial_insights (model : Option AIModel) (re : ReOracle)
    (pyfloat : PyFloat) (today : String)
    (email_content email_from subject : String) : InsightRecord :=
  match model with
  | none => fallback_extraction re pyfloat today email_content email_from subject
  | some m =>
    match m.single email_content email_from subject with
    | .ok result => result
    | .error _ => fallback_extraction re pyfloat today email_content email_from subject

/-- `IntelligentExtractor._process_batch_with_ai`: on a successful batch
response, result `i` is tagged with email `i`'s id; a missing entry falls
back per email; any exception while calling/parsing falls back to
`extract_financial_insights` per email. -/
def process_batch_with_ai (model : Option AIModel) (re : ReOracle)
    (pyfloat : PyFloat) (today : String) (emails : List Email) :
    List InsightRecord :=
  match model with
  | none => []
  | some m =>
    if emails.isEmpty then []
    else
      match m.batch emails with
      | .ok batch_results =>
        emails.enum.map (fun (ie : ℕ × Email) =>
          if h : ie.1 < batch_results.length then
            { batch_results.get ⟨ie.1, h⟩ with email_id := some ie.2.id }
          else
            { fallback_extraction re pyfloat today ie.2.bodyText ie.2.fromAddr
                ie.2.subject with email_id := some ie.2.id })
      | .error _ =>
        emails.map (fun email =>
          { extract_financial_insights model re pyfloat today email.bodyText
              email.fromAddr email.subject with email_id := some email.id })

/-- `IntelligentExtractor.extract_insights_batch`.  The `try/except` around
`_process_batch_with_ai` in the source is modelled without an error branch
because the callee catches all of its own failures (its whole body after
prompt construction sits inside its own `try`).  A `batch_size` of 0 makes
`range` raise `ValueError`, which propagates to the caller. -/
def extract_insights_batch (model : Option AIModel) (re : ReOracle)
    (pyfloat : PyFloat) (today : String) (emails : List Email)
    (batch_size : ℤ) : Except String (List InsightRecord) :=
  if emails.isEmpty then .ok []
  else
    match pyRange 0 emails.length batch_size with
    | .error e => .error e
    | .ok idxs =>
      .ok (idxs.flatMap (fun i =>
        let batch := pySliceInt emails i (i + batch_size)
        match model with
        | some _ => process_batch_with_ai model re pyfloat today batch
        | none =>
          batch.map (fun email =>
            { extract_financial_insights none re pyfloat today email.bodyText
                email.fromAddr email.subject with email_id := some email.id })))

/-! ## Analytics (`services/analytics_service.py`)

Python dicts built by accumulation (`defaultdict(float)`, `Counter`) are
modelled as association lists in first-insertion order.  `sorted(...,
key=itemgetter(1), reverse=True)` (also `Counter.most_common`) is a stable
descending sort, modelled by a stable insertion sort.  The calls
`datetime.strptime(s, '%Y-%m-%d').strftime('%Y-%m')` are modelled by an
oracle `strptimeMonth : String → Option String`, where `none` models a
`ValueError`; `datetime.now()` timestamps are passed in as `today`. -/

/-- Add `v` to key `k` of an accumulation dict (insert at the end on first
occurrence, as Python dicts do). -/
def bumpQ (m : List (String × ℚ)) (k : String) (v : ℚ) : List (String × ℚ) :=
  if (m.lookup k).isSome then
    m.map (fun kv => if kv.1 = k then (kv.1, kv.2 + v) else kv)
  else m ++ [(k, v)]

/-- Increment the counter of key `k` (Python `Counter`). -/
def bumpN (m : List (String × ℕ)) (k : String) : List (String × ℕ) :=
  if (m.lookup k).isSome then
    m.map (fun kv => if kv.1 = k then (kv.1, kv.2 + 1) else kv)
  else m ++ [(k, 1)]

/-- Stable insert for a descending sort by `val`: the new element goes after
every element with a greater-or-equal value. -/
def insertDescBy {α : Type} (val : α → ℚ) (x : α) : List α → List α
  | [] => [x]
  | y :: ys => if val y < val x then x :: y :: ys else y :: insertDescBy val x ys

/-- Python's stable `sorted(l, key=val, reverse=True)`. -/
def sortDescBy {α : Type} (val : α → ℚ) (l : List α) : List α :=
  l.foldl (fun acc x => insertDescBy val x acc) []

/-- `list(set(xs))` — CPython's set iteration order is unspecified; it is
modelled as first-occurrence order. -/
def pySetList (xs : List String) : List String := xs.eraseDups

/-- The `Counter(xs)` of a list, in first-encounter order. -/
def pyCounter (xs : List String) : List (String × ℕ) :=
  xs.foldl (fun acc x => bumpN acc x) []

/-- `Counter.most_common(n)`: stable descending sort by count, first `n`. -/
def mostCommon (n : ℕ) (c : List (String × ℕ)) : List (String × ℕ) :=
  (sortDescBy (fun kv => (kv.2 : ℚ)) c).take n

structure SpendingAnalysis where
  total_spending : ℚ
  category_breakdown : List (String × ℚ)
  monthly_trend : List (String × ℚ)
  top_merchants : List (String × ℚ)
  average_monthly_spending : ℚ
  highest_single_transaction : ℚ
deriving Repr, DecidableEq

/-- Accumulator of the expense loop in `_analyze_spending`. -/
structure SpendingAcc where
  category_spending : List (String × ℚ)
  monthly_spending : List (String × ℚ)
  merchant_spending : List (String × ℚ)
deriving Repr, DecidableEq

/-- One iteration of the expense loop of `_analyze_spending`. -/
def spendingStep (strptimeMonth : String → Option String) (acc : SpendingAcc)
    (expense : Transaction) : SpendingAcc :=
  let amount := expense.amount.getD 0
  let category := expense.category.getD "Other"
  let merchant := expense.merchant.getD "Unknown"
  let date_str := expense.date.getD ""
  let acc :=
    { acc with
      category_spending := bumpQ acc.category_spending category amount
      merchant_spending := bumpQ acc.merchant_spending merchant amount }
  if pyTruthyStr (some date_str) then
    match strptimeMonth date_str with
    | some month_key =>
      { acc with monthly_spending := bumpQ acc.monthly_spending month_key amount }
    | none => acc
  else acc

/-- `AnalyticsService._analyze_spending` -/
def analyze_spending (strptimeMonth : String → Option String)
    (data : List InsightRecord) : SpendingAnalysis :=
  let transactions := data.filterMap (fun item => item.transaction)
  let expenses := transactions.filter
    (fun t => t.transaction_type == some "expense" && pyTruthyQ t.amount)
  if expenses.isEmpty then
    { total_spending := 0, category_breakdown := [], monthly_trend := []
      top_merchants := [], average_monthly_spending := 0
      highest_single_transaction := 0 }
  else
    let acc := expenses.foldl (spendingStep strptimeMonth) ⟨[], [], []⟩
    let top_merchants := (sortDescBy (fun kv => kv.2) acc.merchant_spending).take 10
    let avg_monthly :=
      if acc.monthly_spending.isEmpty then 0
      else ((acc.monthly_spending.map (fun kv => kv.2)).sum) /
        acc.monthly_spending.length
    { total_spending := (expenses.map (fun e => e.amount.getD 0)).sum
      category_breakdown := acc.category_spending
      monthly_trend := acc.monthly_spending
      top_merchants := top_merchants
      average_monthly_spending := pyRound 2 avg_monthly
      highest_single_transaction :=
        ((expenses.map (fun e => e.amount.getD 0)).max?).getD 0 }

structure IncomeAnalysis where
  total_income : ℚ
  employers : List String
  pay_cycles : List (String × ℕ)
  monthly_income_trend : List (String × ℚ)
  average_monthly_income : ℚ
deriving Repr, DecidableEq

/-- Monthly-trend loop of `_analyze_income`. -/
def incomeMonthlyStep (strptimeMonth : String → Option String)
    (acc : List (String × ℚ)) (inc : Income) : List (String × ℚ) :=
  let date_str := inc.date.getD ""
  if pyTruthyStr (some date_str) then
    match strptimeMonth date_str with
    | some month_key => bumpQ acc month_key (inc.amount.getD 0)
    | none => acc
  else acc

/-- `AnalyticsService._analyze_income` -/
def analyze_income (strptimeMonth : String → Option String)
    (data : List InsightRecord) : IncomeAnalysis :=
  let income_data := data.filterMap (fun item => item.income)
  if income_data.isEmpty then
    { total_income := 0, employers := [], pay_cycles := []
      monthly_income_trend := [], average_monthly_income := 0 }
  else
    let employers := pySetList
      ((income_data.filterMap (fun inc => inc.employer)).filter (fun e => e ≠ ""))
    let pay_cycles := pyCounter
      ((income_data.filterMap (fun inc => inc.pay_cycle)).filter (fun c => c ≠ ""))
    let total_income := (income_data.map (fun inc => inc.amount.getD 0)).sum
    let monthly_income := income_data.foldl (incomeMonthlyStep strptimeMonth) []
    let avg :=
      if monthly_income.isEmpty then 0
      else ((monthly_income.map (fun kv => kv.2)).sum) / monthly_income.length
    { total_income := total_income
      employers := employers
      pay_cycles := pay_cycles
      monthly_income_trend := monthly_income
      average_monthly_income := pyRound 2 avg }

/-- The per-service info rows of `_analyze_subscriptions`. -/
structure ServiceInfo where
  service : Option String
  amount : ℚ
  billing_cycle : Option String
  next_billing : Option String
deriving Repr, DecidableEq

/-- `total_annual_cost` is `Option` because the early return for an empty
subscription list omits that key entirely (the other three keys are present
in both branches). -/
structure SubscriptionAnalysis where
  active_subscriptions : ℕ
  monthly_recurring_cost : ℚ
  services : List ServiceInfo
  total_annual_cost : Option ℚ
deriving Repr, DecidableEq

/-- The `Convert to monthly cost` arm of the subscription loop:
`yearly → amount / 12`, `monthly → amount`, `weekly → amount * 4.33`; any
other cycle value adds nothing (there is no else-branch). -/
def subscriptionMonthlyContribution (sub : Subscription) : ℚ :=
  let amount := sub.amount.getD 0
  let cycle := sub.billing_cycle.getD "monthly"
  if cycle = "yearly" then amount / 12
  else if cycle = "monthly" then amount
  else if cycle = "weekly" then amount * (433/100)
  else 0

/-- `AnalyticsService._analyze_subscriptions` -/
def analyze_subscriptions (data : List InsightRecord) : SubscriptionAnalysis :=
  let subscriptions := data.filterMap (fun item => item.subscription)
  if subscriptions.isEmpty then
    { active_subscriptions := 0, monthly_recurring_cost := 0, services := []
      total_annual_cost := none }
  else
    let services := subscriptions.map (fun sub =>
      ({ service := sub.service, amount := sub.amount.getD 0
         billing_cycle := sub.billing_cycle, next_billing := sub.next_billing } :
        ServiceInfo))
    let monthly_cost := subscriptions.foldl
      (fun acc sub => acc + subscriptionMonthlyContribution sub) 0
    { active_subscriptions := subscriptions.length
      monthly_recurring_cost := pyRound 2 monthly_cost
      services := services
      total_annual_cost := some (pyRound 2 (monthly_cost * 12)) }

/-- The keys `total_travel_spending`, `popular_destinations` and
`average_trip_cost` are absent from the empty-input early return. -/
structure TravelAnalysis where
  total_trips : ℕ
  total_travel_spending : Option ℚ
  preferred_airlines : List (String × ℕ)
  preferred_hotels : List (String × ℕ)
  popular_destinations : Option (List (String × ℕ))
  average_trip_cost : Option ℚ
deriving Repr, DecidableEq

/-- `AnalyticsService._analyze_travel` -/
def analyze_travel (data : List InsightRecord) : TravelAnalysis :=
  let travel_data := data.filterMap (fun item => item.travel)
  if travel_data.isEmpty then
    { total_trips := 0, total_travel_spending := none, preferred_airlines := []
      preferred_hotels := [], popular_destinations := none
      average_trip_cost := none }
  else
    let airlines := (travel_data.filterMap (fun t => t.airline)).filter (fun a => a ≠ "")
    let hotels := (travel_data.filterMap (fun t => t.hotel)).filter (fun h => h ≠ "")
    let destinations :=
      (travel_data.filterMap (fun t => t.destination)).filter (fun d => d ≠ "")
    let total_travel_spend := (travel_data.map (fun t => t.booking_amount.getD 0)).sum
    { total_trips := travel_data.length
      total_travel_spending := some total_travel_spend
      preferred_airlines := mostCommon 5 (pyCounter airlines)
      preferred_hotels := mostCommon 5 (pyCounter hotels)
      popular_destinations := some (mostCommon 10 (pyCounter destinations))
      average_trip_cost := some (pyRound 2 (total_travel_spend / travel_data.length)) }

/-- `service_providers` is absent from the empty-input early return. -/
structure BillsAnalysis where
  total_bills : ℕ
  monthly_bill_amount : ℚ
  utility_breakdown : List (String × ℚ)
  service_providers : Option (List String)
deriving Repr, DecidableEq

/-- `AnalyticsService._analyze_bills` -/
def analyze_bills (data : List InsightRecord) : BillsAnalysis :=
  let bills_data := data.filterMap (fun item => item.bills)
  if bills_data.isEmpty then
    { total_bills := 0, monthly_bill_amount := 0, utility_breakdown := []
      service_providers := none }
  else
    let utility_spending := bills_data.foldl
      (fun acc bill => bumpQ acc (bill.utility_type.getD "Other") (bill.amount.getD 0))
      []
    let providers := pySetList
      ((bills_data.filterMap (fun b => b.provider)).filter (fun p => p ≠ ""))
    let total_bills := (utility_spending.map (fun kv => kv.2)).sum
    { total_bills := bills_data.length
      monthly_bill_amount := pyRound 2 total_bills
      utility_breakdown := utility_spending
      service_providers := some providers }

/-- The two branches of `_analyze_investments` return different key sets:
the empty branch has `platforms`/`instruments`, the non-empty branch has
`investment_platforms`/`instrument_breakdown`/`total_invested`/
`total_withdrawn`/`net_investment`. -/
structure InvestmentAnalysis where
  total_investments : ℕ
  platforms : Option (List String)
  instruments : Option (List (String × ℕ))
  investment_platforms : Option (List String)
  instrument_breakdown : Option (List (String × ℕ))
  total_invested : Option ℚ
  total_withdrawn : Option ℚ
  net_investment : Option ℚ
deriving Repr, DecidableEq

/-- `AnalyticsService._analyze_investments` -/
def analyze_investments (data : List InsightRecord) : InvestmentAnalysis :=
  let investment_data := data.filterMap (fun item => item.investment)
  if investment_data.isEmpty then
    { total_investments := 0, platforms := some [], instruments := some []
      investment_platforms := none, instrument_breakdown := none
      total_invested := none, total_withdrawn := none, net_investment := none }
  else
    let platforms := pySetList
      ((investment_data.filterMap (fun inv => inv.platform)).filter (fun p => p ≠ ""))
    let instruments := pyCounter
      ((investment_data.filterMap (fun inv => inv.instrument)).filter (fun i => i ≠ ""))
    let investment_amount :=
      ((investment_data.filter (fun inv => inv.action == some "buy")).map
        (fun inv => inv.amount.getD 0)).sum
    let withdrawal_amount :=
      ((investment_data.filter (fun inv => inv.action == some "sell")).map
        (fun inv => inv.amount.getD 0)).sum
    { total_investments := investment_data.length
      platforms := none, instruments := none
      investment_platforms := some platforms
      instrument_breakdown := some instruments
      total_invested := some investment_amount
      total_withdrawn := some withdrawal_amount
      net_investment := some (investment_amount - withdrawal_amount) }

structure FinancialHealth where
  savings_rate : ℚ
  subscription_to_spending_ratio : ℚ
  financial_health_score : ℤ
  monthly_surplus_deficit : ℚ
deriving Repr, DecidableEq

/-- `AnalyticsService._calculate_financial_health` -/
def calculate_financial_health (strptimeMonth : String → Option String)
    (data : List InsightRecord) : FinancialHealth :=
  let avg_monthly_spending := (analyze_spending strptimeMonth data).average_monthly_spending
  let avg_monthly_income := (analyze_income strptimeMonth data).average_monthly_income
  let monthly_subscriptions := (analyze_subscriptions data).monthly_recurring_cost
  let savings_rate :=
    if 0 < avg_monthly_income then
      ((avg_monthly_income - avg_monthly_spending) / avg_monthly_income) * 100
    else 0
  let subscription_ratio :=
    if 0 < avg_monthly_spending then
      (monthly_subscriptions / avg_monthly_spending) * 100
    else 0
  let health_score : ℤ := 50
  let health_score :=
    if 20 < savings_rate then health_score + 20
    else if 10 < savings_rate then health_score + 10
    else if savings_rate < 0 then health_score - 20
    else health_score
  let health_score :=
    if subscription_ratio < 10 then health_score + 10
    else if 25 < subscription_ratio then health_score - 10
    else health_score
  { savings_rate := pyRound 1 savings_rate
    subscription_to_spending_ratio := pyRound 1 subscription_ratio
    financial_health_score := max 0 (min 100 health_score)
    monthly_surplus_deficit := pyRound 2 (avg_monthly_income - avg_monthly_spending) }

structure Summary where
  total_emails_analyzed : ℕ
  financial_emails_found : ℕ
  transactions_extracted : ℕ
  income_entries_found : ℕ
  subscriptions_identified : ℕ
  analysis_date : String
deriving Repr, DecidableEq

/-- `AnalyticsService._generate_summary`; `today` models
`datetime.now().strftime('%Y-%m-%d %H:%M:%S')`. -/
def generate_summary (today : String) (data : List InsightRecord) : Summary :=
  { total_emails_analyzed := data.length
    financial_emails_found := (data.filter (fun d => d.is_relevant.getD false)).length
    transactions_extracted := (data.filter (fun d => d.transaction.isSome)).length
    income_entries_found := (data.filter (fun d => d.income.isSome)).length
    subscriptions_identified := (data.filter (fun d => d.subscription.isSome)).length
    analysis_date := today }

structure Insights where
  spending_analysis : SpendingAnalysis
  income_analysis : IncomeAnalysis
  subscription_analysis : SubscriptionAnalysis
  travel_analysis : TravelAnalysis
  bills_analysis : BillsAnalysis
  investment_analysis : InvestmentAnalysis
  financial_health : FinancialHealth
  summary : Summary
deriving Repr, DecidableEq

/-- `AnalyticsService.generate_comprehensive_insights`.  The surrounding
`try/except` of the source is not modelled: every section function above is
total, so the default-structure branch is unreachable in the model. -/
def generate_comprehensive_insights (strptimeMonth : String → Option String)
    (today : String) (extracted_data : List InsightRecord) : Insights :=
  let relevant_data := extracted_data.filter (fun item => item.is_relevant.getD false)
  { spending_analysis := analyze_spending strptimeMonth relevant_data
    income_analysis := analyze_income strptimeMonth relevant_data
    subscription_analysis := analyze_subscriptions relevant_data
    travel_analysis := analyze_travel relevant_data
    bills_analysis := analyze_bills relevant_data
    investment_analysis := analyze_investments relevant_data
    financial_health := calculate_financial_health strptimeMonth relevant_data
    summary := generate_summary today relevant_data }

/-! ## Async processor (`services/async_processor.py`)

The in-memory job store (`self.jobs`, a Python dict) is an association
list in insertion order, threaded explicitly.  `datetime.now()` values are
supplied as strings.  Each background run is deterministic once the
behaviour of the collaborators (Gmail fetch, parser, per-batch extraction
outcome) is fixed, so a run is modelled as a function of an environment of
oracle outcomes.  `asyncio.gather(..., return_exceptions=True)` returns the
per-task outcomes in task order, modelled as a list of `Except`. -/

/-- The `final_results` payload assembled at step 6 of
`_process_emails_async` (its `metadata` sub-dict is inlined as fields). -/
structure FinalResults where
  analytics : Insights
  classification_stats : ClassificationStats
  extracted_insights : List InsightRecord
  total_emails_fetched : ℕ
  financial_emails_processed : ℕ
  ai_processing_reduction : ℚ
  processing_completed_at : String
deriving Repr, DecidableEq

/-- One job record.  `updated_at` is `Option` because the key is first
created by `_update_job`, not by `start_processing_job`. -/
structure Job where
  status : String
  progress : ℚ
  total : ℕ
  current_step : String
  start_time : String
  results : Option FinalResults
  error : Option String
  updated_at : Option String
deriving Repr, DecidableEq

/-- Python dict assignment `m[k] = v` on the association-list model. -/
def pyDictSet (m : List (String × Job)) (k : String) (v : Job) :
    List (String × Job) :=
  if (m.lookup k).isSome then
    m.map (fun kv => if kv.1 = k then (kv.1, v) else kv)
  else m ++ [(k, v)]

/-- The message of the `TypeError` raised by `round(None, 1)` when
`_update_job` is called with `progress=None`. -/
def round_none_error : String :=
  "TypeError: type NoneType doesn\x27t define __round__ method"

/-- `AsyncEmailProcessor._update_job`.  The membership guard comes first;
inside it the new-fields dict evaluates `round(progress, 1)`, which raises
a `TypeError` when `progress` is `None` — before anything is written.
`results` (a non-empty dict whenever supplied) and `error` are only set
when truthy. -/
def update_job (jobs : List (String × Job)) (job_id status : String)
    (progress : Option ℚ) (current_step : String)
    (results : Option FinalResults) (error : Option String) (now : String) :
    Except String (List (String × Job)) :=
  if (jobs.lookup job_id).isSome then
    match progress with
    | none => .error round_none_error
    | some p =>
      .ok (jobs.map (fun kv =>
        if kv.1 = job_id then
          (kv.1,
            let j := { kv.2 with
              status := status, progress := pyRound 1 p
              current_step := current_step, updated_at := some now }
            let j := match results with
              | some r => { j with results := some r }
              | none => j
            if pyTruthyStr error then { j with error := error } else j)
        else kv))
  else .ok jobs

/-- The initial job record written by `start_processing_job`. -/
def initial_job (start_time : String) : Job :=
  { status := "starting", progress := 0, total := 0
    current_step := "Initializing...", start_time := start_time
    results := none, error := none, updated_at := none }

/-- `AsyncEmailProcessor.start_processing_job` (store effect only: it also
spawns `_process_emails_async` as a background task and returns the fresh
uuid, which is supplied here as `job_id`). -/
def start_processing_job (jobs : List (String × Job))
    (job_id start_time : String) : List (String × Job) :=
  pyDictSet jobs job_id (initial_job start_time)

/-- `AsyncEmailProcessor.get_job_status` -/
def get_job_status (jobs : List (String × Job)) (job_id : String) : Option Job :=
  jobs.lookup job_id

/-- `AsyncEmailProcessor.cleanup_old_jobs`; `isOld s` models
`datetime.fromisoformat(s).timestamp() < cutoff_time`. -/
def cleanup_old_jobs (isOld : String → Bool) (jobs : List (String × Job)) :
    List (String × Job) :=
  jobs.filter (fun kv =>
    ¬ (isOld kv.2.start_time ∧
      (kv.2.status = "completed" ∨ kv.2.status = "failed")))

/-- A run state: the job store plus the log of `(status, progress)` pairs
actually written to the store by `_update_job` (used to state the
progress-monotonicity claim). -/
structure RunState where
  jobs : List (String × Job)
  writes : List (String × ℚ)

/-- The write performed by a `_update_job` call: nothing when the id is
unknown or when `round` raises. -/
def updWriteLog (jobs : List (String × Job)) (job_id status : String)
    (progress : Option ℚ) : List (String × ℚ) :=
  if (jobs.lookup job_id).isSome then
    match progress with
    | some p => [(status, pyRound 1 p)]
    | none => []
  else []

/-- Run `_update_job` on a `RunState`: the second component is the raised
exception, if any. -/
def applyUpd (s : RunState) (job_id status : String) (progress : Option ℚ)
    (current_step : String) (results : Option FinalResults)
    (error : Option String) (now : String) : RunState × Option String :=
  match update_job s.jobs job_id status progress current_step results error now with
  | .ok jobs' =>
    ({ jobs := jobs'
       writes := s.writes ++ updWriteLog s.jobs job_id status progress }, none)
  | .error e => (s, some e)

/-- Oracle outcomes of one background run's collaborators. -/
structure SchedulerEnv (Raw : Type) where
  /-- `gmail_service.fetch_emails_last_6_months()` -/
  fetch : Except String (List Raw)
  /-- `email_parser.parse_email` -/
  parse : Raw → Except String Email
  /-- the classifier's `re.search` oracle -/
  search : Regex
  /-- outcome of `_process_batch_async(intelligent_extractor, batch, batch_idx)`
  as observed through `asyncio.gather(..., return_exceptions=True)`: either
  the extracted records or the raised exception's message -/
  batchOutcome : ℤ → List Email → Except String (List InsightRecord)
  /-- the analytics date-parsing oracle -/
  strptimeMonth : String → Option String
  /-- `datetime.now()` as a string -/
  now : String

/-- The parse-loop progress formula `20 + (i / len(emails)) * 30`. -/
def parseProgress (i n : ℕ) : ℚ :=
  20 + ((i : ℚ) / (n : ℚ)) * 30

/-- Step 2 of `_process_emails_async`: the parse loop, which appends each
parsed email and reports progress `20 + (i / n) * 30` every 10 emails. -/
def parseLoop {Raw : Type} (env : SchedulerEnv Raw) (job_id : String) (n : ℕ) :
    RunState → ℕ → List Email → List Raw →
    RunState × Except String (List Email)
  | s, _, acc, [] => (s, .ok acc)
  | s, i, acc, raw :: rest =>
    match env.parse raw with
    | .error e => (s, .error e)
    | .ok parsed_email =>
      let acc' := acc ++ [parsed_email]
      if i % 10 = 0 then
        let i1 := i + 1
        match applyUpd s job_id "running" (some (parseProgress i n))
            s!"Parsing emails... {i1}/{n}" none none env.now with
        | (s', some e) => (s', .error e)
        | (s', none) => parseLoop env job_id n s' (i + 1) acc' rest
      else parseLoop env job_id n s (i + 1) acc' rest

/-- Step 4's batch construction: `relevant_emails[i:i+5]` for
`i in range(0, len(relevant_emails), 5)` (the stride 5 never raises). -/
def makeBatches (relevant_emails : List Email) : List (ℤ × List Email) :=
  match pyRange 0 relevant_emails.length 5 with
  | .ok idxs => idxs.map (fun i => (i, pySliceInt relevant_emails i (i + 5)))
  | .error _ => []

/-- The inner result loop over one chunk's gathered outcomes: an exception
outcome triggers the warning `_update_job` call with `progress=None` (which
itself raises when the job id exists); a normal outcome extends
`extracted_data`. -/
def collectLoop (job_id now : String) :
    RunState → List InsightRecord → List (Except String (List InsightRecord)) →
    RunState × Except String (List InsightRecord)
  | s, acc, [] => (s, .ok acc)
  | s, acc, result :: rest =>
    match result with
    | .error msg =>
      match applyUpd s job_id "running" none
          s!"Warning: Batch processing error - {msg}" none none now with
      | (s', some e) => (s', .error e)
      | (s', none) => collectLoop job_id now s' acc rest
    | .ok lst => collectLoop job_id now s (acc ++ lst) rest

/-- `processed_emails = min(min(chunk_start + 3, len(batches)) * 5,
len(relevant_emails))` after a chunk. -/
def processedOfChunk (nBatches : ℤ) (nRelevant : ℕ) (chunk_start : ℤ) : ℤ :=
  min (min (chunk_start + 3) nBatches * 5) (nRelevant : ℤ)

/-- The chunk-level progress `60 + (processed / nRelevant) * 30`.  (When
`nRelevant = 0` this division never actually runs: there are then no
batches and no chunk iterations; the rational convention `x / 0 = 0` is
harmless for the unreachable case.) -/
def chunkProgress (nBatches : ℤ) (nRelevant : ℕ) (chunk_start : ℤ) : ℚ :=
  60 + ((processedOfChunk nBatches nRelevant chunk_start : ℚ) / (nRelevant : ℚ)) * 30

/-- The chunk loop of step 4: `batches[cs:cs+3]` for
`cs in range(0, len(batches), 3)`; after each chunk the progress is
`60 + (min(min(cs+3, nBatches)*5, nRelevant) / nRelevant) * 30`. -/
def chunkLoop {Raw : Type} (env : SchedulerEnv Raw) (job_id : String)
    (batches : List (ℤ × List Email)) (nRelevant : ℕ) :
    RunState → List InsightRecord → List ℤ →
    RunState × Except String (List InsightRecord)
  | s, acc, [] => (s, .ok acc)
  | s, acc, chunk_start :: rest =>
    let chunk_batches := pySliceInt batches chunk_start (chunk_start + 3)
    let batch_results := chunk_batches.map
      (fun ib => env.batchOutcome ib.1 ib.2)
    match collectLoop job_id env.now s acc batch_results with
    | (s', .error e) => (s', .error e)
    | (s', .ok acc') =>
      let processed := processedOfChunk (batches.length : ℤ) nRelevant chunk_start
      match applyUpd s' job_id "running"
          (some (chunkProgress (batches.length : ℤ) nRelevant chunk_start))
          s!"AI processing... {processed}/{nRelevant} emails (parallel processing)"
          none none env.now with
      | (s'', some e) => (s'', .error e)
      | (s'', none) => chunkLoop env job_id batches nRelevant s'' acc' rest

/-- The body of the `try:` block of `_process_emails_async`; the second
component is the exception caught by the `except`, if any. -/
def runBody {Raw : Type} (env : SchedulerEnv Raw) (s0 : RunState)
    (job_id : String) : RunState × Option String :=
  match applyUpd s0 job_id "running" (some 10)
      "Fetching ALL emails from Gmail (last 6 months)..." none none env.now with
  | (s, some e) => (s, some e)
  | (s, none) =>
  match env.fetch with
  | .error e => (s, some e)
  | .ok emails =>
  let nEmails := emails.length
  match applyUpd s job_id "running" (some 20)
      s!"Fetched {nEmails} emails. Parsing content..." none none env.now with
  | (s, some e) => (s, some e)
  | (s, none) =>
  match parseLoop env job_id nEmails s 0 [] emails with
  | (s, .error e) => (s, some e)
  | (s, .ok parsed_emails) =>
  match applyUpd s job_id "running" (some 50)
      "Classifying emails by relevance..." none none env.now with
  | (s, some e) => (s, some e)
  | (s, none) =>
  let classified := classify_emails_batch env.search parsed_emails
  let stats := get_classification_stats classified
  let relevant_emails :=
    classified.definitely_financial ++ classified.maybe_financial
  let nRelevant := relevant_emails.length
  let nSkipped := stats.probably_not
  match applyUpd s job_id "running" (some 60)
      s!"Processing {nRelevant} financial emails with AI... (Skipped {nSkipped} irrelevant emails)"
      none none env.now with
  | (s, some e) => (s, some e)
  | (s, none) =>
  let batches := makeBatches relevant_emails
  let chunk_starts :=
    match pyRange 0 batches.length 3 with
    | .ok l => l
    | .error _ => []
  match chunkLoop env job_id batches nRelevant s [] chunk_starts with
  | (s, .error e) => (s, some e)
  | (s, .ok extracted_data) =>
  match applyUpd s job_id "running" (some 90)
      "Generating comprehensive analytics..." none none env.now with
  | (s, some e) => (s, some e)
  | (s, none) =>
  let analytics :=
    generate_comprehensive_insights env.strptimeMonth env.now extracted_data
  let final_results : FinalResults :=
    { analytics := analytics
      classification_stats := stats
      extracted_insights := extracted_data
      total_emails_fetched := nEmails
      financial_emails_processed := nRelevant
      ai_processing_reduction := stats.ai_processing_reduction
      processing_completed_at := env.now }
  match applyUpd s job_id "completed" (some 100)
      "Processing completed successfully!" (some final_results) none env.now with
  | (s, some e) => (s, some e)
  | (s, none) => (s, none)

/-- `AsyncEmailProcessor._process_emails_async`: run the body; on any
exception, record the failed status with progress 0 and the error string. -/
def process_emails_async {Raw : Type} (env : SchedulerEnv Raw) (s0 : RunState)
    (job_id : String) : RunState :=
  match runBody env s0 job_id with
  | (s, none) => s
  | (s, some e) =>
    (applyUpd s job_id "failed" (some 0) s!"Error: {e}" none (some e) env.now).1

/-- The progress values written with status `"running"`. -/
def runningWrites (s : RunState) : List ℚ :=
  s.writes.filterMap (fun sp => if sp.1 = "running" then some sp.2 else none)

/-- Invariant carried through a run: the running-progress writes so far are
non-decreasing and all bounded by `round(c, 1)` for the current raw
progress bound `c`, and the job record (if present) only carries status
`"completed"` together with a results payload. -/
def InvAt (job_id : String) (c : ℚ) (s : RunState) : Prop :=
  (runningWrites s).Chain' (· ≤ ·)
  ∧ (∀ x ∈ runningWrites s, x ≤ pyRound 1 c)
  ∧ (∀ j, s.jobs.lookup job_id = some j → j.status = "completed" →
      j.results.isSome)

/-- `InvAt` for some bound. -/
def InvSome (job_id : String) (s : RunState) : Prop :=
  ∃ c, InvAt job_id c s

/-! ## Progress streamer (`get_job_stream`)

Each loop iteration polls `get_job_status(job_id)`; the sequence of store
snapshots observed at the successive polls is supplied as a list (the
stream is still live when the list of modelled polls is exhausted). -/

inductive StreamItem where
  /-- `{"status": ..., "progress": ..., "current_step": ..., "updated_at": ...}` -/
  | snapshot (status : String) (progress : ℚ) (current_step : String)
      (updated_at : Option String)
  /-- `{"results": ...}` -/
  | resultsPayload (results : FinalResults)
  /-- `{"error": ...}` — also used for the `"Job not found"` terminal item -/
  | errorPayload (error : String)
deriving Repr, DecidableEq

/-- `AsyncEmailProcessor.get_job_stream`, as a function of the polled
snapshots; the initial `last_progress` is `-1`. -/
def get_job_stream : List (Option Job) → ℚ → List StreamItem
  | [], _ => []
  | ob :: rest, last_progress =>
    match ob with
    | none => [.errorPayload "Job not found"]
    | some job =>
      let emitted :=
        if job.progress ≠ last_progress then
          [StreamItem.snapshot job.status job.progress job.current_step
            job.updated_at]
        else []
      let last' := if job.progress ≠ last_progress then job.progress
        else last_progress
      if job.status = "completed" ∨ job.status = "failed" then
        emitted ++
          (if job.status = "completed" then
            match job.results with
            | some r => [.resultsPayload r]
            | none => []
          else [.errorPayload (job.error.getD "Unknown error")])
      else emitted ++ get_job_stream rest last'

/-- The progress values of the snapshot items of a stream. -/
def snapshotProgresses (items : List StreamItem) : List ℚ :=
  items.filterMap (fun item =>
    match item with
    | .snapshot _ p _ _ => some p
    | _ => none)

/-- A sample insight record carrying one subscription of the given amount
and billing cycle (used for concrete instantiations). -/
def subscriptionRecord (amount : ℚ) (cycle : String) : InsightRecord :=
  { transaction := none
    subscription := some
      { service := none, amount := some amount, billing_cycle := some cycle
        next_billing := none, charged_to_card := none }
    travel := none, bills := none, card_info := none, income := none
    investment := none, is_relevant := some true, email_id := none }

/-! ## Helper lemmas -/

theorem classify_foldl_eq (search : Regex) (emails : List Email)
    (acc : ClassifiedEmails) :
    emails.foldl
      (fun acc email =>
        match classify_email search email with
        | .definitely_financial =>
            { acc with definitely_financial := acc.definitely_financial ++ [email] }
        | .maybe_financial =>
            { acc with maybe_financial := acc.maybe_financial ++ [email] }
        | .probably_not_financial =>
            { acc with probably_not := acc.probably_not ++ [email] })
      acc
    = { definitely_financial := acc.definitely_financial ++
          emails.filter (fun e => classify_email search e == .definitely_financial)
        maybe_financial := acc.maybe_financial ++
          emails.filter (fun e => classify_email search e == .maybe_financial)
        probably_not := acc.probably_not ++
          emails.filter (fun e => classify_email search e == .probably_not_financial) } := by
  induction emails generalizing acc with
  | nil => simp
  | cons e rest ih =>
    simp only [List.foldl_cons, List.filter_cons]
    rcases h : classify_email search e with _ | _ | _ <;>
      simp [h, ih, List.append_assoc]

theorem classify_emails_batch_eq (search : Regex) (emails : List Email) :
    classify_emails_batch search emails =
      { definitely_financial :=
          emails.filter (fun e => classify_email search e == .definitely_financial)
        maybe_financial :=
          emails.filter (fun e => classify_email search e == .maybe_financial)
        probably_not :=
          emails.filter (fun e => classify_email search e == .probably_not_financial) } := by
  unfold classify_emails_batch
  rw [classify_foldl_eq]
  simp

theorem classify_filter_lengths (search : Regex) (emails : List Email) :
    (emails.filter (fun e => classify_email search e == .definitely_financial)).length
    + (emails.filter (fun e => classify_email search e == .maybe_financial)).length
    + (emails.filter (fun e => classify_email search e == .probably_not_financial)).length
    = emails.length := by
  induction emails with
  | nil => simp
  | cons e rest ih =>
    rcases h : classify_email search e with _ | _ | _ <;>
      simp [List.filter_cons, h] <;> omega

/-! ## C2: `classify_emails_batch` partitions its input -/

/-- C2: for every regex oracle and email list, `classify_emails_batch`
partitions the input exactly: each bucket is the order-preserving filter of
the input by the corresponding result of `classify_email`, the bucket sizes
sum to the input size, every input email lands in the bucket matching its
individual classification and in no other bucket, and the buckets are
pairwise disjoint. -/
theorem classify_emails_batch_partition (search : Regex) (emails : List Email) :
    (classify_emails_batch search emails).definitely_financial =
      emails.filter (fun e => classify_email search e == .definitely_financial)
    ∧ (classify_emails_batch search emails).maybe_financial =
      emails.filter (fun e => classify_email search e == .maybe_financial)
    ∧ (classify_emails_batch search emails).probably_not =
      emails.filter (fun e => classify_email search e == .probably_not_financial)
    ∧ (classify_emails_batch search emails).definitely_financial.length
      + (classify_emails_batch search emails).maybe_financial.length
      + (classify_emails_batch search emails).probably_not.length = emails.length
    ∧ (∀ e ∈ emails,
        (e ∈ (classify_emails_batch search emails).definitely_financial ↔
          classify_email search e = .definitely_financial)
        ∧ (e ∈ (classify_emails_batch search emails).maybe_financial ↔
          classify_email search e = .maybe_financial)
        ∧ (e ∈ (classify_emails_batch search emails).probably_not ↔
          classify_email search e = .probably_not_financial))
    ∧ (∀ e : Email,
        ¬ (e ∈ (classify_emails_batch search emails).definitely_financial ∧
           e ∈ (classify_emails_batch search emails).maybe_financial)
        ∧ ¬ (e ∈ (classify_emails_batch search emails).definitely_financial ∧
           e ∈ (classify_emails_batch search emails).probably_not)
        ∧ ¬ (e ∈ (classify_emails_batch search emails).maybe_financial ∧
           e ∈ (classify_emails_batch search emails).probably_not)) := by
  rw [classify_emails_batch_eq]
  refine ⟨rfl, rfl, rfl, classify_filter_lengths search emails, ?_, ?_⟩
  · intro e he
    refine ⟨?_, ?_, ?_⟩ <;> simp [List.mem_filter, he]
  · intro e
    refine ⟨?_, ?_, ?_⟩ <;>
      · rintro ⟨h1, h2⟩
        simp [List.mem_filter] at h1 h2
        rw [h1.2] at h2
        exact absurd h2.2 (by simp)

/-! ## C7: exclude patterns win -/

/-- C7: whenever some exclude pattern matches the normalized classification
text (subject + from + first 200 body characters, lowercased), the email is
classified `ProbablyNot`, regardless of what the other two tiers match. -/
theorem classify_email_exclude_wins (search : Regex) (email : Email)
    (h : ∃ p ∈ exclude_patterns, search p (classificationText email) = true) :
    classify_email search email = .probably_not_financial := by
  obtain ⟨p, hp, hs⟩ := h
  have hany : exclude_patterns.any (fun q => search q (classificationText email)) = true :=
    List.any_eq_true.mpr ⟨p, hp, hs⟩
  simp [classify_email, hany]

/-- Witness for C7: with an oracle that matches every pattern (so the
definitely-financial patterns match too), the result is still
`ProbablyNot`. -/
theorem classify_email_exclude_wins_witness :
    classify_email (fun _ _ => true)
      ⟨"id1", "0", "promo@shop.example", "Mega sale", "unsubscribe today"⟩ =
      .probably_not_financial :=
  classify_email_exclude_wins (fun _ _ => true)
    ⟨"id1", "0", "promo@shop.example", "Mega sale", "unsubscribe today"⟩
    ⟨"\\b(newsletter|unsubscribe|promotional|marketing|advertisement)\\b",
      by simp [exclude_patterns], rfl⟩

/-! ## C10: `_update_job` on an unknown id, and its frame -/

theorem lookup_map_of_agree (job_id : String) (g : String × Job → String × Job)
    (hfst : ∀ kv, (g kv).1 = kv.1) (hid : ∀ kv, kv.1 ≠ job_id → g kv = kv) :
    ∀ (l : List (String × Job)) (k : String), k ≠ job_id →
      (l.map g).lookup k = l.lookup k := by
  intro l
  induction l with
  | nil => intro k _; rfl
  | cons kv rest ih =>
    intro k hk
    by_cases h1 : kv.1 = job_id
    · have : (k == (g kv).1) = false := by
        rw [hfst kv, h1]
        exact beq_eq_false_iff_ne.mpr hk
      have hk2 : (k == kv.1) = false := by
        rw [h1]; exact beq_eq_false_iff_ne.mpr hk
      simp only [List.map_cons, List.lookup, this, hk2]
      exact ih k hk
    · rw [List.map_cons, hid kv h1]
      simp only [List.lookup]
      cases hkk : (k == kv.1) with
      | true => rfl
      | false => exact ih k hk

theorem map_fst_map_of_agree (g : String × Job → String × Job)
    (hfst : ∀ kv, (g kv).1 = kv.1) (l : List (String × Job)) :
    (l.map g).map Prod.fst = l.map Prod.fst := by
  rw [List.map_map]
  exact List.map_congr_left (fun kv _ => hfst kv)

/-- C10: `_update_job` with an unknown job id raises nothing and leaves the
store untouched; with a known id it never creates or removes keys and never
changes the value at any other key (so the jobs mapping is only ever
mutated at keys previously created by `start_processing_job`). -/
theorem update_job_unknown_id_noop (jobs : List (String × Job))
    (job_id status : String) (progress : Option ℚ) (current_step : String)
    (results : Option FinalResults) (error : Option String) (now : String) :
    (jobs.lookup job_id = none →
      update_job jobs job_id status progress current_step results error now = .ok jobs)
    ∧ (∀ jobs',
        update_job jobs job_id status progress current_step results error now = .ok jobs' →
        jobs'.map Prod.fst = jobs.map Prod.fst
        ∧ ∀ k, k ≠ job_id → jobs'.lookup k = jobs.lookup k) := by
  constructor
  · intro h
    simp [update_job, h]
  · intro jobs' h
    unfold update_job at h
    by_cases hmem : (jobs.lookup job_id).isSome
    · rw [if_pos hmem] at h
      cases progress with
      | none => exact absurd h (by simp)
      | some p =>
        simp only [Except.ok.injEq] at h
        subst h
        constructor
        · exact map_fst_map_of_agree _ (fun kv => by by_cases hkv : kv.1 = job_id <;> simp [hkv]) jobs
        · intro k hk
          exact lookup_map_of_agree job_id _
            (fun kv => by by_cases hkv : kv.1 = job_id <;> simp [hkv])
            (fun kv hkv => by simp [hkv]) jobs k hk
    · rw [if_neg hmem] at h
      simp only [Except.ok.injEq] at h
      subst h
      exact ⟨rfl, fun _ _ => rfl⟩

/-- Witness for C10: updating an id absent from an empty store is a no-op,
and updating a known id preserves the other keys. -/
theorem update_job_unknown_id_noop_witness :
    update_job [] "j1" "running" (some 5) "step" none none "t0" = .ok [] :=
  (update_job_unknown_id_noop [] "j1" "running" (some 5) "step" none none "t0").1 rfl

/-! ## C9: amount extraction range and the fallback transaction guard -/

theorem extractAmountLoop_range (findall : String → String → List String)
    (pyfloat : PyFloat) (text : String) :
    ∀ (ps : List String) (a : ℚ),
      extractAmountLoop findall pyfloat text ps = some a →
      1 ≤ a ∧ a ≤ 1000000 := by
  intro ps
  induction ps with
  | nil => intro a h; exact absurd h (by simp [extractAmountLoop])
  | cons p rest ih =>
    intro a h
    cases hfind : findall p text with
    | nil =>
      simp only [extractAmountLoop, hfind] at h
      exact ih a h
    | cons m ms =>
      cases hfl : pyfloat (m.replace "," "") with
      | none =>
        simp only [extractAmountLoop, hfind, hfl] at h
        exact ih a h
      | some amount =>
        simp only [extractAmountLoop, hfind, hfl] at h
        by_cases hr : 1 ≤ amount ∧ amount ≤ 1000000
        · rw [if_pos hr] at h
          cases h
          exact hr
        · rw [if_neg hr] at h; exact ih a h

theorem extractAmountLoop_none (findall : String → String → List String)
    (pyfloat : PyFloat) (text : String) :
    ∀ (ps : List String),
      (∀ p ∈ ps, ∀ m ms, findall p text = m :: ms →
        ∀ v, pyfloat (m.replace "," "") = some v → ¬ (1 ≤ v ∧ v ≤ 1000000)) →
      extractAmountLoop findall pyfloat text ps = none := by
  intro ps
  induction ps with
  | nil => intro _; simp [extractAmountLoop]
  | cons p rest ih =>
    intro h
    cases hfind : findall p text with
    | nil =>
      simp only [extractAmountLoop, hfind]
      exact ih (fun q hq => h q (List.mem_cons_of_mem p hq))
    | cons m ms =>
      cases hfl : pyfloat (m.replace "," "") with
      | none =>
        simp only [extractAmountLoop, hfind, hfl]
        exact ih (fun q hq => h q (List.mem_cons_of_mem p hq))
      | some amount =>
        simp only [extractAmountLoop, hfind, hfl]
        rw [if_neg (h p (List.mem_cons_self p rest) m ms hfind amount hfl)]
        exact ih (fun q hq => h q (List.mem_cons_of_mem p hq))

/-- C9: `_extract_amount` only ever returns an amount inside `[1, 1000000]`;
when every first pattern match parses to a value outside that range (or
fails to parse) it returns `None`; and whenever it returns `None` the
fallback extractor leaves the `transaction` sub-record at `None`, merchant
or no merchant. -/
theorem extract_amount_range (re : ReOracle) (pyfloat : PyFloat)
    (text today email_content email_from subject : String) (a : ℚ) :
    (extract_amount re pyfloat text = some a → 1 ≤ a ∧ a ≤ 1000000)
    ∧ ((∀ p ∈ amount_patterns, ∀ m ms, re.findall p text = m :: ms →
          ∀ v, pyfloat (m.replace "," "") = some v → ¬ (1 ≤ v ∧ v ≤ 1000000)) →
        extract_amount re pyfloat text = none)
    ∧ (extract_amount re pyfloat ((subject ++ " " ++ email_content).toLower) = none →
        (fallback_extraction re pyfloat today email_content email_from subject).transaction
          = none) := by
  refine ⟨fun h => extractAmountLoop_range re.findall pyfloat text _ a h,
    fun h => extractAmountLoop_none re.findall pyfloat text _ h, fun h => ?_⟩
  unfold fallback_extraction
  by_cases hk : credit_card_keywords.any
      (fun keyword => pyIn keyword ((subject ++ " " ++ email_content).toLower)) <;>
    simp [hk, h, pyTruthyQ]

/-- Witness for C9: an oracle whose only match parses to 5000000 (outside
the accepted range) yields no amount and no transaction even though a
merchant ("Swiggy") is identified; an oracle matching "499" yields 499,
inside the range. -/
theorem extract_amount_range_witness :
    ((1 : ℚ) ≤ 499 ∧ (499 : ℚ) ≤ 1000000)
    ∧ extract_amount
        ⟨fun _ _ => false, fun _ _ => ["5000000"], fun _ _ => none⟩
        (fun s => if s = "5000000" then some 5000000 else none)
        ("payment at swiggy" ++ " " ++ "rs 5000000 charged").toLower = none
    ∧ (fallback_extraction
        ⟨fun _ _ => false, fun _ _ => ["5000000"], fun _ _ => none⟩
        (fun s => if s = "5000000" then some 5000000 else none)
        "2025-01-01" "rs 5000000 charged" "noreply@swiggy.in"
        "payment at swiggy").transaction = none := by
  refine ⟨?_, ?_, ?_⟩
  · exact (extract_amount_range
      ⟨fun _ _ => false, fun _ _ => ["499"], fun _ _ => none⟩
      (fun s => if s = "499" then some 499 else none)
      "txt" "2025-01-01" "c" "f" "s" 499).1 (by with_unfolding_all rfl)
  · exact (extract_amount_range
      ⟨fun _ _ => false, fun _ _ => ["5000000"], fun _ _ => none⟩
      (fun s => if s = "5000000" then some 5000000 else none)
      (("payment at swiggy" ++ " " ++ "rs 5000000 charged").toLower)
      "2025-01-01" "c" "f" "s" 0).2.1
      (by
        intro p hp m ms hcons v hv hrange
        cases hcons
        have hrepl : ("5000000".replace "," "") = "5000000" := by
          with_unfolding_all rfl
        rw [hrepl, if_pos rfl] at hv
        cases hv
        exact absurd hrange.2 (by with_unfolding_all decide))
  · exact (extract_amount_range
      ⟨fun _ _ => false, fun _ _ => ["5000000"], fun _ _ => none⟩
      (fun s => if s = "5000000" then some 5000000 else none)
      "unused" "2025-01-01" "rs 5000000 charged" "noreply@swiggy.in"
      "payment at swiggy" 0).2.2 (by with_unfolding_all rfl)

/-! ## C4: batch extraction yields one tagged record per email, in order -/

theorem map_flatMap' {α β γ : Type} (g : β → γ) (f : α → List β) (l : List α) :
    (l.flatMap f).map g = l.flatMap (fun x => (f x).map g) := by
  induction l with
  | nil => rfl
  | cons x xs ih => simp [List.flatMap_cons, ih]

theorem flatMap_map' {α β γ : Type} (f : α → β) (g : β → List γ) (l : List α) :
    (l.map f).flatMap g = l.flatMap (fun x => g (f x)) := by
  induction l with
  | nil => rfl
  | cons x xs ih => simp [List.flatMap_cons, ih]

theorem flatMap_congr' {α β : Type} (f g : α → List β) (l : List α)
    (h : ∀ a ∈ l, f a = g a) : l.flatMap f = l.flatMap g := by
  induction l with
  | nil => rfl
  | cons x xs ih =>
    simp only [List.flatMap_cons]
    rw [h x (List.mem_cons_self x xs), ih (fun a ha => h a (List.mem_cons_of_mem x ha))]

theorem pySliceInt_map {α β : Type} (g : α → β) (l : List α) (a b : ℤ) :
    pySliceInt (l.map g) a b = (pySliceInt l a b).map g := by
  simp [pySliceInt, List.map_take, List.map_drop]

theorem pyRange_pos_eq (n b : ℕ) (hb : 1 ≤ b) :
    pyRange 0 n (b : ℤ) = .ok ((List.range ((n + b - 1) / b)).map
      (fun k => ((b * k : ℕ) : ℤ))) := by
  have hbz : (b : ℤ) ≠ 0 := by exact_mod_cast Nat.one_le_iff_ne_zero.mp hb
  have hbp : (0 : ℤ) < b := by exact_mod_cast hb
  unfold pyRange
  rw [if_neg hbz, if_pos hbp]
  congr 1
  have h1 : ((n : ℤ) - 0 + b - 1) / (b : ℤ) = ((n + b - 1 : ℕ) : ℤ) / ((b : ℕ) : ℤ) := by
    congr 1
    omega
  have h2 : (((n + b - 1 : ℕ) : ℤ) / ((b : ℕ) : ℤ)).toNat = (n + b - 1) / b := rfl
  rw [h1, h2]
  apply List.map_congr_left
  intro k _
  push_cast
  ring

theorem flatMap_range_chunks {α : Type} (b : ℕ) (l : List α) (m : ℕ) :
    (List.range m).flatMap (fun k => (l.take (b * k + b)).drop (b * k))
      = l.take (b * m) := by
  induction m with
  | zero => simp
  | succ m ih =>
    rw [List.range_succ, List.flatMap_append, ih]
    simp only [List.flatMap_cons, List.flatMap_nil, List.append_nil]
    rw [List.drop_take]
    have h1 : b * m + b - b * m = b := by omega
    have h2 : b * (m + 1) = b * m + b := by ring
    rw [h1, h2, List.take_add]

theorem chunks_cover {α : Type} (b : ℕ) (hb : 1 ≤ b) (l : List α) :
    (List.range ((l.length + b - 1) / b)).flatMap
      (fun k => (l.take (b * k + b)).drop (b * k)) = l := by
  rw [flatMap_range_chunks]
  apply List.take_of_length_le
  have h1 := Nat.div_add_mod (l.length + b - 1) b
  have h2 : (l.length + b - 1) % b < b := Nat.mod_lt _ (by omega)
  have h3 : l.length + b = (l.length + b - 1) + 1 := by omega
  linarith [h1, h2, h3]

theorem enumFrom_map_email_id (f : ℕ × Email → InsightRecord)
    (hf : ∀ ie, (f ie).email_id = some ie.2.id) :
    ∀ (l : List Email) (k : ℕ),
      ((l.enumFrom k).map f).map (fun r => r.email_id)
        = l.map (fun e => some e.id) := by
  intro l
  induction l with
  | nil => intro k; rfl
  | cons e rest ih =>
    intro k
    simp only [List.enumFrom_cons, List.map_cons, hf, ih]

theorem process_batch_with_ai_email_ids (m : AIModel) (re : ReOracle)
    (pyfloat : PyFloat) (today : String) (batch : List Email) :
    (process_batch_with_ai (some m) re pyfloat today batch).map
        (fun r => r.email_id)
      = batch.map (fun e => some e.id) := by
  cases batch with
  | nil => rfl
  | cons e rest =>
    simp only [process_batch_with_ai, List.isEmpty_cons, Bool.false_eq_true,
      if_false]
    cases hbr : m.batch (e :: rest) with
    | error err =>
      simp only [hbr, List.map_map]
      apply List.map_congr_left
      intro e' _
      rfl
    | ok rs =>
      simp only [hbr]
      unfold List.enum
      exact enumFrom_map_email_id _
        (fun ie => by by_cases h : ie.1 < rs.length <;> simp [h]) (e :: rest) 0

/-- Counterexample to C4 as stated: with a batch size of `-1` (Python's
`range(0, len(emails), -1)` is empty) the function returns no records at
all for a 1-email input, instead of one record per email; a batch size of 0
would instead raise `ValueError`. -/
theorem extract_insights_batch_counterexample :
    extract_insights_batch none ⟨fun _ _ => false, fun _ _ => [], fun _ _ => none⟩
        (fun _ => none) "2025-01-01"
        [⟨"e1", "0", "f@x.example", "subj", "body"⟩] (-1) = .ok []
    ∧ ([] : List InsightRecord).length ≠
        [(⟨"e1", "0", "f@x.example", "subj", "body"⟩ : Email)].length := by
  constructor
  · with_unfolding_all rfl
  · decide

/-- C4 (amended: for batch sizes ≥ 1): `extract_insights_batch` returns
exactly one insight record per input email, in input order, each tagged
with that email's id — whether or not the model is available, and whatever
each per-batch model call does (including failing). -/
theorem extract_insights_batch_order (model : Option AIModel) (re : ReOracle)
    (pyfloat : PyFloat) (today : String) (emails : List Email)
    (batch_size : ℤ) (hbs : 1 ≤ batch_size) :
    ∃ out, extract_insights_batch model re pyfloat today emails batch_size = .ok out
      ∧ out.map (fun r => r.email_id) = emails.map (fun e => some e.id) := by
  by_cases he : emails.isEmpty
  · refine ⟨[], ?_, ?_⟩
    · simp [extract_insights_batch, he]
    · rw [List.isEmpty_iff.mp he]; rfl
  · have hb0 : 0 ≤ batch_size := by omega
    have hbz : batch_size = (batch_size.toNat : ℤ) := (Int.toNat_of_nonneg hb0).symm
    set b := batch_size.toNat with hbdef
    have hb1 : 1 ≤ b := by omega
    unfold extract_insights_batch
    rw [if_neg he, hbz, pyRange_pos_eq emails.length b hb1]
    refine ⟨_, rfl, ?_⟩
    rw [map_flatMap', flatMap_map']
    have hslice : ∀ k : ℕ,
        pySliceInt emails ((b * k : ℕ) : ℤ) (((b * k : ℕ) : ℤ) + ((b : ℕ) : ℤ))
          = (emails.take (b * k + b)).drop (b * k) := by
      intro k
      have harg : (((b * k : ℕ) : ℤ) + ((b : ℕ) : ℤ)) = ((b * k + b : ℕ) : ℤ) := by
        push_cast; ring
      rw [harg]
      simp only [pySliceInt, Int.toNat_natCast]
    refine Eq.trans (flatMap_congr' _
      (fun k => ((emails.map (fun e => some e.id)).take (b * k + b)).drop (b * k))
      _ ?_) ?_
    · intro k _
      have hmapped : ((emails.take (b * k + b)).drop (b * k)).map
            (fun e => some e.id)
          = ((emails.map (fun e => some e.id)).take (b * k + b)).drop (b * k) := by
        simp [List.map_take, List.map_drop]
      cases model with
      | none =>
        simp only []
        rw [hslice k, List.map_map, ← hmapped]
        apply List.map_congr_left
        intro e' _
        rfl
      | some m =>
        simp only []
        rw [hslice k, ← hmapped]
        exact process_batch_with_ai_email_ids m re pyfloat today _
    · have := chunks_cover b hb1 (emails.map (fun e => some e.id))
      simpa using this

/-- Witness for C4 (amended) at three emails and batch size 2 with no model
handle: three records tagged `e1, e2, e3` in order. -/
theorem extract_insights_batch_order_witness :
    ∃ out, extract_insights_batch none
        ⟨fun _ _ => false, fun _ _ => [], fun _ _ => none⟩ (fun _ => none)
        "2025-01-01"
        [⟨"e1", "0", "a@x.example", "s1", "b1"⟩,
         ⟨"e2", "0", "b@x.example", "s2", "b2"⟩,
         ⟨"e3", "0", "c@x.example", "s3", "b3"⟩] 2 = .ok out
      ∧ out.map (fun r => r.email_id) =
          ([⟨"e1", "0", "a@x.example", "s1", "b1"⟩,
            ⟨"e2", "0", "b@x.example", "s2", "b2"⟩,
            ⟨"e3", "0", "c@x.example", "s3", "b3"⟩] : List Email).map
            (fun e => some e.id) :=
  extract_insights_batch_order none
    ⟨fun _ _ => false, fun _ _ => [], fun _ _ => none⟩ (fun _ => none)
    "2025-01-01"
    [⟨"e1", "0", "a@x.example", "s1", "b1"⟩,
     ⟨"e2", "0", "b@x.example", "s2", "b2"⟩,
     ⟨"e3", "0", "c@x.example", "s3", "b3"⟩] 2 (by decide)

/-! ## C5: aggregation on the empty input -/

theorem pyRound_zero (nd : ℕ) : pyRound nd 0 = 0 := by
  have h : roundHalfEven 0 = 0 := by norm_num [roundHalfEven]
  simp [pyRound, h]

theorem analyze_spending_nil (f : String → Option String) :
    analyze_spending f [] =
      { total_spending := 0, category_breakdown := [], monthly_trend := []
        top_merchants := [], average_monthly_spending := 0
        highest_single_transaction := 0 } := by
  with_unfolding_all rfl

theorem analyze_income_nil (f : String → Option String) :
    analyze_income f [] =
      { total_income := 0, employers := [], pay_cycles := []
        monthly_income_trend := [], average_monthly_income := 0 } := by
  with_unfolding_all rfl

theorem analyze_subscriptions_nil :
    analyze_subscriptions [] =
      { active_subscriptions := 0, monthly_recurring_cost := 0
        services := [], total_annual_cost := none } := by
  with_unfolding_all rfl

theorem analyze_travel_nil :
    analyze_travel [] =
      { total_trips := 0, total_travel_spending := none
        preferred_airlines := [], preferred_hotels := []
        popular_destinations := none, average_trip_cost := none } := by
  with_unfolding_all rfl

theorem analyze_bills_nil :
    analyze_bills [] =
      { total_bills := 0, monthly_bill_amount := 0, utility_breakdown := []
        service_providers := none } := by
  with_unfolding_all rfl

theorem analyze_investments_nil :
    analyze_investments [] =
      { total_investments := 0, platforms := some [], instruments := some []
        investment_platforms := none, instrument_breakdown := none
        total_invested := none, total_withdrawn := none
        net_investment := none } := by
  with_unfolding_all rfl

theorem calculate_financial_health_nil (f : String → Option String) :
    calculate_financial_health f [] =
      { savings_rate := 0, subscription_to_spending_ratio := 0
        financial_health_score := 60, monthly_surplus_deficit := 0 } := by
  unfold calculate_financial_health
  rw [analyze_spending_nil, analyze_income_nil, analyze_subscriptions_nil]
  norm_num [pyRound_zero]

theorem generate_summary_nil (today : String) :
    generate_summary today [] =
      { total_emails_analyzed := 0, financial_emails_found := 0
        transactions_extracted := 0, income_entries_found := 0
        subscriptions_identified := 0, analysis_date := today } := rfl

/-- C5 (documents the code bug): `generate_comprehensive_insights([])` does
return every section with zero/empty values and never raises — e.g.
`total_spending = 0` and `category_breakdown = {}` — but the subscription
section of the early return at `_analyze_subscriptions` omits the
`total_annual_cost` key entirely (modelled as `none`), although the
function's own error-fallback default documents that key as present with
value 0.  (The health score on empty input is 60: base 50 plus 10 because
the subscription-to-spending ratio 0 is below 10.) -/
theorem aggregate_empty_missing_total_annual_cost
    (strptimeMonth : String → Option String) (today : String) :
    (generate_comprehensive_insights strptimeMonth today []).spending_analysis =
      { total_spending := 0, category_breakdown := [], monthly_trend := []
        top_merchants := [], average_monthly_spending := 0
        highest_single_transaction := 0 }
    ∧ (generate_comprehensive_insights strptimeMonth today []).income_analysis =
      { total_income := 0, employers := [], pay_cycles := []
        monthly_income_trend := [], average_monthly_income := 0 }
    ∧ (generate_comprehensive_insights strptimeMonth today []).subscription_analysis =
      { active_subscriptions := 0, monthly_recurring_cost := 0
        services := [], total_annual_cost := none }
    ∧ (generate_comprehensive_insights strptimeMonth today []).travel_analysis =
      { total_trips := 0, total_travel_spending := none
        preferred_airlines := [], preferred_hotels := []
        popular_destinations := none, average_trip_cost := none }
    ∧ (generate_comprehensive_insights strptimeMonth today []).bills_analysis =
      { total_bills := 0, monthly_bill_amount := 0, utility_breakdown := []
        service_providers := none }
    ∧ (generate_comprehensive_insights strptimeMonth today []).investment_analysis =
      { total_investments := 0, platforms := some [], instruments := some []
        investment_platforms := none, instrument_breakdown := none
        total_invested := none, total_withdrawn := none
        net_investment := none }
    ∧ (generate_comprehensive_insights strptimeMonth today []).financial_health =
      { savings_rate := 0, subscription_to_spending_ratio := 0
        financial_health_score := 60, monthly_surplus_deficit := 0 }
    ∧ (generate_comprehensive_insights strptimeMonth today []).summary =
      { total_emails_analyzed := 0, financial_emails_found := 0
        transactions_extracted := 0, income_entries_found := 0
        subscriptions_identified := 0, analysis_date := today }
    ∧ (generate_comprehensive_insights strptimeMonth today
        []).subscription_analysis.total_annual_cost = none := by
  refine ⟨?_, ?_, ?_, ?_, ?_, ?_, ?_, ?_, ?_⟩ <;>
    simp only [generate_comprehensive_insights, List.filter_nil,
      analyze_spending_nil, analyze_income_nil, analyze_subscriptions_nil,
      analyze_travel_nil, analyze_bills_nil, analyze_investments_nil,
      calculate_financial_health_nil, generate_summary_nil]

/-! ## C6: subscription monthly normalization and rounding -/

theorem foldl_add_contribution (f : Subscription → ℚ) :
    ∀ (l : List Subscription) (init : ℚ),
      l.foldl (fun acc sub => acc + f sub) init = init + (l.map f).sum := by
  intro l
  induction l with
  | nil => intro init; simp
  | cons s rest ih =>
    intro init
    simp only [List.foldl_cons, List.map_cons, List.sum_cons, ih]
    ring

/-- Counterexample to C6 as stated: for one yearly subscription of amount 1,
the reported `monthly_recurring_cost` is 0.08 (the normalized sum 1/12
rounded to 2 decimals), not the exact sum 1/12; and the reported
`total_annual_cost` is 1, which is not 12 times the reported monthly cost
(12 · 0.08 = 0.96). -/
theorem subscription_rounding_counterexample :
    (analyze_subscriptions [subscriptionRecord 1 "yearly"]).monthly_recurring_cost
      = 2/25
    ∧ (2/25 : ℚ) ≠ 1/12
    ∧ (analyze_subscriptions [subscriptionRecord 1 "yearly"]).total_annual_cost
      = some 1
    ∧ (1 : ℚ) ≠ 12 * (2/25) := by
  refine ⟨?_, by norm_num, ?_, by norm_num⟩ <;> with_unfolding_all rfl

/-- C6 (amended): the reported monthly recurring cost is the sum of the
per-subscription normalized contributions — `yearly → amount/12`,
`monthly → amount`, `weekly → amount · 4.33` — *rounded half-even to two
decimals*, and the reported total annual cost is 12 times the *unrounded*
monthly sum, again rounded to two decimals (present whenever at least one
subscription record exists); in particular amount 120 yearly contributes
exactly 10 and amount 50 weekly contributes exactly 216.5 to the unrounded
sum. -/
theorem subscription_normalization (data : List InsightRecord)
    (hne : data.filterMap (fun item => item.subscription) ≠ []) :
    (analyze_subscriptions data).monthly_recurring_cost
      = pyRound 2 (((data.filterMap (fun item => item.subscription)).map
          subscriptionMonthlyContribution).sum)
    ∧ (analyze_subscriptions data).total_annual_cost
      = some (pyRound 2 ((((data.filterMap (fun item => item.subscription)).map
          subscriptionMonthlyContribution).sum) * 12))
    ∧ (∀ sub : Subscription, sub.billing_cycle = some "yearly" →
        subscriptionMonthlyContribution sub = sub.amount.getD 0 / 12)
    ∧ (∀ sub : Subscription, sub.billing_cycle = some "monthly" →
        subscriptionMonthlyContribution sub = sub.amount.getD 0)
    ∧ (∀ sub : Subscription, sub.billing_cycle = some "weekly" →
        subscriptionMonthlyContribution sub = sub.amount.getD 0 * (433/100))
    ∧ subscriptionMonthlyContribution
        { service := none, amount := some 120, billing_cycle := some "yearly"
          next_billing := none, charged_to_card := none } = 10
    ∧ subscriptionMonthlyContribution
        { service := none, amount := some 50, billing_cycle := some "weekly"
          next_billing := none, charged_to_card := none } = 433/2 := by
  have hempty : (data.filterMap (fun item => item.subscription)).isEmpty = false := by
    cases hl : data.filterMap (fun item => item.subscription) with
    | nil => exact absurd hl hne
    | cons s rest => rfl
  refine ⟨?_, ?_, ?_, ?_, ?_, ?_, ?_⟩
  · simp only [analyze_subscriptions, hempty, Bool.false_eq_true, if_false,
      foldl_add_contribution, zero_add]
  · simp only [analyze_subscriptions, hempty, Bool.false_eq_true, if_false,
      foldl_add_contribution, zero_add]
  · intro sub h
    simp [subscriptionMonthlyContribution, h]
  · intro sub h
    simp [subscriptionMonthlyContribution, h]
  · intro sub h
    simp [subscriptionMonthlyContribution, h]
  · with_unfolding_all rfl
  · with_unfolding_all rfl

/-- Witness for C6 (amended) at one 120-yearly subscription record: the
reported monthly cost equals the rounded normalized sum (both are 10). -/
theorem subscription_normalization_witness :
    (analyze_subscriptions [subscriptionRecord 120 "yearly"]).monthly_recurring_cost
      = pyRound 2 ((([subscriptionRecord 120 "yearly"]).filterMap
          (fun item => item.subscription)).map
          subscriptionMonthlyContribution).sum :=
  (subscription_normalization [subscriptionRecord 120 "yearly"]
    (by with_unfolding_all decide)).1

/-! ## Scheduler invariants: rounding monotonicity and `_update_job` steps -/

theorem roundHalfEven_ge_floor (x : ℚ) : ⌊x⌋ ≤ roundHalfEven x := by
  simp only [roundHalfEven]
  split_ifs <;> omega

theorem roundHalfEven_le_floor_add_one (x : ℚ) : roundHalfEven x ≤ ⌊x⌋ + 1 := by
  simp only [roundHalfEven]
  split_ifs <;> omega

theorem roundHalfEven_mono {x y : ℚ} (h : x ≤ y) :
    roundHalfEven x ≤ roundHalfEven y := by
  rcases lt_or_le ⌊x⌋ ⌊y⌋ with hf | hf
  · calc roundHalfEven x ≤ ⌊x⌋ + 1 := roundHalfEven_le_floor_add_one x
      _ ≤ ⌊y⌋ := by omega
      _ ≤ roundHalfEven y := roundHalfEven_ge_floor y
  · have heq : ⌊x⌋ = ⌊y⌋ := le_antisymm (Int.floor_le_floor h) hf
    have hr : x - (⌊y⌋ : ℚ) ≤ y - (⌊y⌋ : ℚ) := by linarith
    simp only [roundHalfEven, heq]
    split_ifs <;> first | omega | linarith

theorem pyRound_mono (nd : ℕ) {x y : ℚ} (h : x ≤ y) :
    pyRound nd x ≤ pyRound nd y := by
  unfold pyRound
  have hp : (0 : ℚ) < (10 : ℚ) ^ nd := by positivity
  have hm : x * (10 : ℚ) ^ nd ≤ y * (10 : ℚ) ^ nd :=
    mul_le_mul_of_nonneg_right h (le_of_lt hp)
  have hr : ((roundHalfEven (x * (10 : ℚ) ^ nd) : ℤ) : ℚ)
      ≤ ((roundHalfEven (y * (10 : ℚ) ^ nd) : ℤ) : ℚ) := by
    exact_mod_cast roundHalfEven_mono hm
  exact (div_le_div_iff_of_pos_right hp).mpr hr

theorem applyUpd_some_progress_eq (s : RunState) (jid st : String) (p : ℚ)
    (step : String) (r : Option FinalResults) (e : Option String)
    (now : String) :
    applyUpd s jid st (some p) step r e now
      = ((applyUpd s jid st (some p) step r e now).1, none) := by
  unfold applyUpd update_job
  by_cases h : (s.jobs.lookup jid).isSome <;> simp [h]

theorem applyUpd_none_progress_fst (s : RunState) (jid st step : String)
    (r : Option FinalResults) (e : Option String) (now : String) :
    (applyUpd s jid st none step r e now).1 = s := by
  unfold applyUpd update_job
  by_cases h : (s.jobs.lookup jid).isSome
  · simp [h]
  · simp [h, updWriteLog]

theorem lookup_map_prop (job_id : String) (F : String × Job → String × Job)
    (Q : Job → Prop)
    (hfst : ∀ kv, (F kv).1 = kv.1)
    (hprop : ∀ kv, kv.1 = job_id → Q (F kv).2) :
    ∀ (l : List (String × Job)) (j : Job),
      (l.map F).lookup job_id = some j → Q j := by
  intro l
  induction l with
  | nil => intro j h; exact absurd h (by simp)
  | cons kv rest ih =>
    intro j h
    rw [List.map_cons] at h
    by_cases hk : kv.1 = job_id
    · have hbeq : (job_id == (F kv).1) = true := by
        rw [hfst kv, hk]
        exact beq_self_eq_true job_id
      simp only [List.lookup, hbeq] at h
      cases h
      exact hprop kv hk
    · have hbeq : (job_id == (F kv).1) = false := by
        rw [hfst kv]
        exact beq_eq_false_iff_ne.mpr (fun e2 => hk e2.symm)
      simp only [List.lookup, hbeq] at h
      exact ih j h

theorem applyUpd_writes (s : RunState) (jid st : String) (progress : Option ℚ)
    (step : String) (r : Option FinalResults) (e : Option String)
    (now : String) :
    (applyUpd s jid st progress step r e now).1.writes
      = s.writes ++ updWriteLog s.jobs jid st progress := by
  unfold applyUpd update_job updWriteLog
  by_cases h : (s.jobs.lookup jid).isSome <;> cases progress <;> simp [h]

theorem runningWrites_applyUpd (s : RunState) (jid st : String)
    (progress : Option ℚ) (step : String) (r : Option FinalResults)
    (e : Option String) (now : String) :
    runningWrites (applyUpd s jid st progress step r e now).1
      = runningWrites s ++ (updWriteLog s.jobs jid st progress).filterMap
          (fun sp => if sp.1 = "running" then some sp.2 else none) := by
  unfold runningWrites
  rw [applyUpd_writes, List.filterMap_append]

theorem applyUpd_jobs_P (s : RunState) (jid st : String) (progress : Option ℚ)
    (step : String) (r : Option FinalResults) (e : Option String)
    (now : String)
    (harg : st = "completed" → r.isSome)
    (hP : ∀ j, s.jobs.lookup jid = some j → j.status = "completed" →
      j.results.isSome) :
    ∀ j, (applyUpd s jid st progress step r e now).1.jobs.lookup jid = some j →
      j.status = "completed" → j.results.isSome := by
  unfold applyUpd update_job
  by_cases h : (s.jobs.lookup jid).isSome
  · cases progress with
    | none => simpa [h] using hP
    | some p =>
      simp only [h, if_true, if_pos]
      intro j hj
      refine lookup_map_prop jid _
        (fun j' => j'.status = "completed" → j'.results.isSome) ?_ ?_ s.jobs j hj
      · intro kv
        by_cases hkv : kv.1 = jid <;> simp [hkv]
      · intro kv hkv
        simp only [hkv, if_pos]
        cases r with
        | some fr =>
          by_cases he : pyTruthyStr e <;> simp [he]
        | none =>
          by_cases he : pyTruthyStr e <;> simp [he] <;>
            · intro hst
              exact absurd (harg hst) (by simp)
  · simpa [h] using hP

theorem chain'_append_singleton_le (l : List ℚ) (a : ℚ)
    (hl : l.Chain' (· ≤ ·)) (ha : ∀ x ∈ l, x ≤ a) :
    (l ++ [a]).Chain' (· ≤ ·) := by
  rw [List.chain'_append]
  refine ⟨hl, List.chain'_singleton a, ?_⟩
  intro x hx y hy
  simp only [List.head?_cons, Option.mem_def, Option.some.injEq] at hy
  subst hy
  exact ha x (List.mem_of_mem_getLast? hx)

theorem InvAt_mono {jid : String} {c c' : ℚ} {s : RunState}
    (h : InvAt jid c s) (hcc : c ≤ c') : InvAt jid c' s :=
  ⟨h.1, fun x hx => le_trans (h.2.1 x hx) (pyRound_mono 1 hcc), h.2.2⟩

/-- A `"running"` update with progress `p ≥ c` preserves the invariant and
raises the bound to `p`. -/
theorem applyUpd_running_inv (s : RunState) (jid : String) (p : ℚ)
    (step now : String) (c : ℚ)
    (hInv : InvAt jid c s) (hcp : c ≤ p) :
    InvAt jid p (applyUpd s jid "running" (some p) step none none now).1 := by
  obtain ⟨hchain, hbound, hP⟩ := hInv
  refine ⟨?_, ?_, ?_⟩
  · rw [runningWrites_applyUpd]
    unfold updWriteLog
    by_cases h : (s.jobs.lookup jid).isSome
    · simp only [h, if_true, if_pos]
      refine chain'_append_singleton_le _ _ hchain ?_
      intro x hx
      have : (if ("running" : String) = "running" then
          some (pyRound 1 p) else none) = some (pyRound 1 p) := by simp
      simp only [List.filterMap_cons, this, List.filterMap_nil]
      exact le_trans (hbound x hx) (pyRound_mono 1 hcp)
    · simp only [h, Bool.false_eq_true, if_false, List.filterMap_nil,
        List.append_nil]
      exact hchain
  · rw [runningWrites_applyUpd]
    intro x hx
    rcases List.mem_append.mp hx with hx1 | hx2
    · exact le_trans (hbound x hx1) (pyRound_mono 1 hcp)
    · unfold updWriteLog at hx2
      by_cases h : (s.jobs.lookup jid).isSome
      · simp [h] at hx2
        subst hx2
        exact le_refl _
      · simp [h] at hx2
  · exact applyUpd_jobs_P s jid "running" (some p) step none none now
      (by intro hc; exact absurd hc (by decide)) hP

/-- Any update whose status is not `"running"` (and which, if it writes the
`"completed"` status, also supplies a results payload) preserves the
invariant at the same bound. -/
theorem applyUpd_nonrunning_inv (s : RunState) (jid st : String)
    (progress : Option ℚ) (step : String) (r : Option FinalResults)
    (e : Option String) (now : String) (c : ℚ)
    (hInv : InvAt jid c s) (hst : st ≠ "running")
    (harg : st = "completed" → r.isSome) :
    InvAt jid c (applyUpd s jid st progress step r e now).1 := by
  obtain ⟨hchain, hbound, hP⟩ := hInv
  have hlog : (updWriteLog s.jobs jid st progress).filterMap
      (fun sp => if sp.1 = "running" then some sp.2 else none) = [] := by
    unfold updWriteLog
    by_cases h : (s.jobs.lookup jid).isSome
    · cases progress with
      | none => simp [h]
      | some p => simp [h, hst]
    · simp [h]
  refine ⟨?_, ?_, ?_⟩
  · rw [runningWrites_applyUpd, hlog, List.append_nil]
    exact hchain
  · rw [runningWrites_applyUpd, hlog, List.append_nil]
    exact hbound
  · exact applyUpd_jobs_P s jid st progress step r e now harg hP

/-- An update with `progress=None` either leaves the state untouched (it
raises before writing) or, when the id is unknown, writes nothing. -/
theorem applyUpd_none_inv (s : RunState) (jid st step : String)
    (r : Option FinalResults) (e : Option String) (now : String) (c : ℚ)
    (hInv : InvAt jid c s) :
    InvAt jid c (applyUpd s jid st none step r e now).1 := by
  rw [applyUpd_none_progress_fst]
  exact hInv

theorem collectLoop_inv (jid now : String) (c : ℚ) :
    ∀ (results : List (Except String (List InsightRecord)))
      (s : RunState) (acc : List InsightRecord),
      InvAt jid c s →
      (match collectLoop jid now s acc results with
       | (s', .ok _) => InvAt jid c s'
       | (s', .error _) => InvSome jid s') := by
  intro results
  induction results with
  | nil =>
    intro s acc h
    simp only [collectLoop]
    exact h
  | cons res rest ih =>
    intro s acc h
    cases res with
    | ok lst =>
      simp only [collectLoop]
      exact ih s (acc ++ lst) h
    | error msg =>
      simp only [collectLoop]
      rcases happ : applyUpd s jid "running" none
          s!"Warning: Batch processing error - {msg}" none none now
        with ⟨s0, e2⟩
      have hs0 : s0 = s := by
        have hfst := applyUpd_none_progress_fst s jid "running"
          s!"Warning: Batch processing error - {msg}" none none now
        rw [happ] at hfst
        exact hfst
      cases e2 with
      | some err =>
        subst hs0
        exact ⟨c, h⟩
      | none =>
        subst hs0
        exact ih _ acc h

theorem parseProgress_mono (n : ℕ) {i j : ℕ} (h : i ≤ j) :
    parseProgress i n ≤ parseProgress j n := by
  unfold parseProgress
  rcases Nat.eq_zero_or_pos n with h0 | hpos
  · subst h0
    norm_num
  · have hn : (0 : ℚ) < n := by exact_mod_cast hpos
    have hij : (i : ℚ) ≤ (j : ℚ) := by exact_mod_cast h
    have := (div_le_div_iff_of_pos_right hn).mpr hij
    linarith

theorem parseLoop_inv {Raw : Type} (env : SchedulerEnv Raw) (jid : String)
    (n : ℕ) :
    ∀ (raws : List Raw) (i : ℕ) (acc : List Email) (s : RunState),
      InvAt jid (parseProgress i n) s →
      (match parseLoop env jid n s i acc raws with
       | (s', .ok _) => InvAt jid (parseProgress (i + raws.length) n) s'
       | (s', .error _) => InvSome jid s') := by
  intro raws
  induction raws with
  | nil =>
    intro i acc s h
    simp only [parseLoop, List.length_nil, Nat.add_zero]
    exact h
  | cons raw rest ih =>
    intro i acc s h
    simp only [parseLoop]
    cases hpar : env.parse raw with
    | error e =>
      exact ⟨parseProgress i n, h⟩
    | ok pe =>
      dsimp only
      have harith : i + (raw :: rest).length = (i + 1) + rest.length := by
        simp only [List.length_cons]
        omega
      rw [harith]
      by_cases hmod : i % 10 = 0
      · rw [if_pos hmod, applyUpd_some_progress_eq]
        have h1 := applyUpd_running_inv s jid (parseProgress i n)
          s!"Parsing emails... {i+1}/{n}" env.now (parseProgress i n) h
          (le_refl _)
        have h2 := InvAt_mono h1 (parseProgress_mono n (Nat.le_succ i))
        exact ih (i + 1) (acc ++ [pe]) _ h2
      · rw [if_neg hmod]
        exact ih (i + 1) (acc ++ [pe]) s
          (InvAt_mono h (parseProgress_mono n (Nat.le_succ i)))

theorem chunkProgress_mono (nb : ℤ) (nr : ℕ) {cs cs' : ℤ} (h : cs ≤ cs') :
    chunkProgress nb nr cs ≤ chunkProgress nb nr cs' := by
  unfold chunkProgress processedOfChunk
  have hmin : min (min (cs + 3) nb * 5) (nr : ℤ)
      ≤ min (min (cs' + 3) nb * 5) (nr : ℤ) := by
    refine min_le_min ?_ (le_refl _)
    refine mul_le_mul_of_nonneg_right ?_ (by norm_num)
    exact min_le_min (by omega) (le_refl _)
  have hc : ((min (min (cs + 3) nb * 5) (nr : ℤ) : ℤ) : ℚ)
      ≤ ((min (min (cs' + 3) nb * 5) (nr : ℤ) : ℤ) : ℚ) := Int.cast_le.mpr hmin
  rcases Nat.eq_zero_or_pos nr with h0 | hpos
  · subst h0
    simp
  · have hn : (0 : ℚ) < (nr : ℚ) := by exact_mod_cast hpos
    have := (div_le_div_iff_of_pos_right hn).mpr hc
    linarith

theorem chunkProgress_ge_60 (nb : ℤ) (nr : ℕ) (cs : ℤ) (hcs : 0 ≤ cs)
    (hnb : 0 ≤ nb) : 60 ≤ chunkProgress nb nr cs := by
  unfold chunkProgress processedOfChunk
  have hmin : (0 : ℤ) ≤ min (min (cs + 3) nb * 5) (nr : ℤ) := by
    refine le_min ?_ (by positivity)
    refine mul_nonneg ?_ (by norm_num)
    exact le_min (by omega) hnb
  have hq : (0 : ℚ) ≤ ((min (min (cs + 3) nb * 5) (nr : ℤ) : ℤ) : ℚ) := by
    exact_mod_cast hmin
  have hdiv : (0 : ℚ) ≤ ((min (min (cs + 3) nb * 5) (nr : ℤ) : ℤ) : ℚ) / (nr : ℚ) :=
    div_nonneg hq (by positivity)
  linarith

theorem chunkProgress_le_90 (nb : ℤ) (nr : ℕ) (cs : ℤ) :
    chunkProgress nb nr cs ≤ 90 := by
  unfold chunkProgress processedOfChunk
  rcases Nat.eq_zero_or_pos nr with h0 | hpos
  · subst h0
    norm_num
  · have hn : (0 : ℚ) < (nr : ℚ) := by exact_mod_cast hpos
    have hle : min (min (cs + 3) nb * 5) (nr : ℤ) ≤ (nr : ℤ) := min_le_right _ _
    have hq : ((min (min (cs + 3) nb * 5) (nr : ℤ) : ℤ) : ℚ) ≤ (nr : ℚ) := by
      exact_mod_cast hle
    have hdiv : ((min (min (cs + 3) nb * 5) (nr : ℤ) : ℤ) : ℚ) / (nr : ℚ) ≤ 1 :=
      (div_le_one hn).mpr hq
    linarith

theorem chunkLoop_inv {Raw : Type} (env : SchedulerEnv Raw) (jid : String)
    (batches : List (ℤ × List Email)) (nr : ℕ) :
    ∀ (csList : List ℤ) (acc : List InsightRecord) (s : RunState) (c : ℚ),
      InvAt jid c s →
      (∀ cs ∈ csList, c ≤ chunkProgress (batches.length : ℤ) nr cs) →
      csList.Pairwise (· ≤ ·) →
      c ≤ 90 →
      (match chunkLoop env jid batches nr s acc csList with
       | (s', .ok _) => InvAt jid 90 s'
       | (s', .error _) => InvSome jid s') := by
  intro csList
  induction csList with
  | nil =>
    intro acc s c h _ _ hc90
    simp only [chunkLoop]
    exact InvAt_mono h hc90
  | cons cs rest ih =>
    intro acc s c h hfirst hsorted hc90
    simp only [chunkLoop]
    have hcol := collectLoop_inv jid env.now c
      ((pySliceInt batches cs (cs + 3)).map
        (fun ib => env.batchOutcome ib.1 ib.2)) s acc h
    rcases hcl : collectLoop jid env.now s acc
        ((pySliceInt batches cs (cs + 3)).map
          (fun ib => env.batchOutcome ib.1 ib.2))
      with ⟨s1, res1⟩
    rw [hcl] at hcol
    rw [hcl]
    cases res1 with
    | error e =>
      exact hcol
    | ok acc1 =>
      dsimp only
      rw [applyUpd_some_progress_eq]
      have hcol' : InvAt jid c s1 := hcol
      have h1 := applyUpd_running_inv s1 jid
        (chunkProgress (batches.length : ℤ) nr cs)
        s!"AI processing... {processedOfChunk (batches.length : ℤ) nr cs}/{nr} emails (parallel processing)"
        env.now c hcol'
        (hfirst cs (List.mem_cons_self cs rest))
      have hrest := List.pairwise_cons.mp hsorted
      exact ih acc1 _ (chunkProgress (batches.length : ℤ) nr cs) h1
        (fun cs' hcs' => chunkProgress_mono (batches.length : ℤ) nr
          (hrest.1 cs' hcs'))
        hrest.2
        (chunkProgress_le_90 (batches.length : ℤ) nr cs)

theorem parseProgress_zero (n : ℕ) : parseProgress 0 n = 20 := by
  unfold parseProgress
  simp

theorem parseProgress_le_50 (n m : ℕ) (hm : m ≤ n) : parseProgress m n ≤ 50 := by
  unfold parseProgress
  rcases Nat.eq_zero_or_pos n with h0 | hpos
  · subst h0
    have : m = 0 := by omega
    subst this
    norm_num
  · have hn : (0 : ℚ) < (n : ℚ) := by exact_mod_cast hpos
    have hq : (m : ℚ) ≤ (n : ℚ) := by exact_mod_cast hm
    have := (div_le_one hn).mpr hq
    linarith

theorem pyRange3_eq (n : ℕ) :
    pyRange 0 (n : ℤ) 3 = .ok ((List.range ((n + 2) / 3)).map
      (fun k : ℕ => ((3 * k : ℕ) : ℤ))) := by
  have h := pyRange_pos_eq n 3 (by norm_num)
  have harith : n + 3 - 1 = n + 2 := by omega
  rw [harith] at h
  simpa using h

theorem chunkStarts_nonneg (m : ℕ) :
    ∀ cs ∈ (List.range m).map (fun k : ℕ => ((3 * k : ℕ) : ℤ)), (0 : ℤ) ≤ cs := by
  intro cs hcs
  simp only [List.mem_map] at hcs
  obtain ⟨k, _, hk⟩ := hcs
  subst hk
  positivity

theorem chunkStarts_pairwise (m : ℕ) :
    ((List.range m).map (fun k : ℕ => ((3 * k : ℕ) : ℤ))).Pairwise (· ≤ ·) := by
  refine List.Pairwise.map _ ?_ (List.pairwise_lt_range m)
  intro a b hab
  have : 3 * a ≤ 3 * b := by omega
  exact_mod_cast this

theorem runBody_inv {Raw : Type} (env : SchedulerEnv Raw) (s0 : RunState)
    (jid : String) (h0 : InvAt jid 10 s0) :
    InvSome jid (runBody env s0 jid).1 := by
  unfold runBody
  rw [applyUpd_some_progress_eq]
  dsimp only
  set s1 := (applyUpd s0 jid "running" (some 10)
    "Fetching ALL emails from Gmail (last 6 months)..." none none env.now).1
    with hs1
  have h1 : InvAt jid 10 s1 := applyUpd_running_inv s0 jid 10
    "Fetching ALL emails from Gmail (last 6 months)..." env.now 10 h0 (le_refl _)
  cases hfetch : env.fetch with
  | error e => exact ⟨10, h1⟩
  | ok emails =>
    dsimp only
    rw [applyUpd_some_progress_eq]
    dsimp only
    set s2 := (applyUpd s1 jid "running" (some 20)
      s!"Fetched {emails.length} emails. Parsing content..." none none env.now).1
      with hs2
    have h2 : InvAt jid 20 s2 := applyUpd_running_inv s1 jid 20
      s!"Fetched {emails.length} emails. Parsing content..." env.now 10 h1
      (by norm_num)
    have hp := parseLoop_inv env jid emails.length emails 0 [] s2
      ((parseProgress_zero emails.length).symm ▸ h2)
    rcases hpl : parseLoop env jid emails.length s2 0 [] emails with ⟨s3, res3⟩
    rw [hpl] at hp
    cases res3 with
    | error e => exact hp
    | ok parsed =>
      dsimp only
      have h3 : InvAt jid 50 s3 :=
        InvAt_mono hp (parseProgress_le_50 emails.length (0 + emails.length)
          (by omega))
      rw [applyUpd_some_progress_eq]
      dsimp only
      set s4 := (applyUpd s3 jid "running" (some 50)
        "Classifying emails by relevance..." none none env.now).1 with hs4
      have h4 : InvAt jid 50 s4 := applyUpd_running_inv s3 jid 50
        "Classifying emails by relevance..." env.now 50 h3 (le_refl _)
      rw [applyUpd_some_progress_eq]
      dsimp only
      set relevant := (classify_emails_batch env.search parsed).definitely_financial
        ++ (classify_emails_batch env.search parsed).maybe_financial with hrel
      set s5 := (applyUpd s4 jid "running" (some 60)
        s!"Processing {relevant.length} financial emails with AI... (Skipped {(get_classification_stats (classify_emails_batch env.search parsed)).probably_not} irrelevant emails)"
        none none env.now).1 with hs5
      have h5 : InvAt jid 60 s5 := applyUpd_running_inv s4 jid 60 _ env.now 50 h4
        (by norm_num)
      rw [pyRange3_eq (makeBatches relevant).length]
      dsimp only
      have hch := chunkLoop_inv env jid (makeBatches relevant) relevant.length
        ((List.range (((makeBatches relevant).length + 2) / 3)).map
          (fun k : ℕ => ((3 * k : ℕ) : ℤ)))
        [] s5 60 h5
        (fun cs hcs => chunkProgress_ge_60 _ _ cs
          (chunkStarts_nonneg _ cs hcs) (by positivity))
        (chunkStarts_pairwise _) (by norm_num)
      rcases hcl2 : chunkLoop env jid (makeBatches relevant) relevant.length s5 []
          ((List.range (((makeBatches relevant).length + 2) / 3)).map
            (fun k : ℕ => ((3 * k : ℕ) : ℤ)))
        with ⟨s6, res6⟩
      rw [hcl2] at hch
      try rw [hcl2]
      cases res6 with
      | error e => exact hch
      | ok extracted =>
        dsimp only
        have h6 : InvAt jid 90 s6 := hch
        rw [applyUpd_some_progress_eq]
        dsimp only
        set s7 := (applyUpd s6 jid "running" (some 90)
          "Generating comprehensive analytics..." none none env.now).1 with hs7
        have h7 : InvAt jid 90 s7 := applyUpd_running_inv s6 jid 90
          "Generating comprehensive analytics..." env.now 90 h6 (le_refl _)
        rw [applyUpd_some_progress_eq]
        dsimp only
        refine ⟨90, applyUpd_nonrunning_inv s7 jid "completed" (some 100)
          "Processing completed successfully!" (some _) none env.now 90 h7
          (by decide) (fun _ => rfl)⟩

theorem process_emails_async_inv {Raw : Type} (env : SchedulerEnv Raw)
    (s0 : RunState) (jid : String) (h0 : InvAt jid 10 s0) :
    InvSome jid (process_emails_async env s0 jid) := by
  unfold process_emails_async
  have hrb := runBody_inv env s0 jid h0
  rcases hrb2 : runBody env s0 jid with ⟨s1, e?⟩
  rw [hrb2] at hrb
  cases e? with
  | none => exact hrb
  | some e =>
    obtain ⟨c, hc⟩ := hrb
    exact ⟨c, applyUpd_nonrunning_inv s1 jid "failed" (some 0) s!"Error: {e}"
      none (some e) env.now c hc (by decide) (fun h => absurd h (by decide))⟩

theorem lookup_map_set (k : String) (v : Job) :
    ∀ m : List (String × Job), (m.lookup k).isSome →
      (m.map (fun kv => if kv.1 = k then (kv.1, v) else kv)).lookup k = some v := by
  intro m
  induction m with
  | nil => intro h; simp at h
  | cons kv rest ih =>
    intro h
    rw [List.map_cons]
    by_cases hk : kv.1 = k
    · rw [if_pos hk]
      simp [List.lookup, hk]
    · rw [if_neg hk]
      have hbeq : (k == kv.1) = false :=
        beq_eq_false_iff_ne.mpr (fun e2 => hk e2.symm)
      simp only [List.lookup, hbeq]
      apply ih
      simp only [List.lookup, hbeq] at h
      exact h

theorem lookup_append_set (k : String) (v : Job) :
    ∀ m : List (String × Job), ¬ (m.lookup k).isSome →
      (m ++ [(k, v)]).lookup k = some v := by
  intro m
  induction m with
  | nil => intro _; simp [List.lookup]
  | cons kv rest ih =>
    intro h
    have hbeq : (k == kv.1) = false := by
      cases hbool : (k == kv.1) with
      | false => rfl
      | true =>
        exfalso
        apply h
        simp [List.lookup, hbool]
    simp only [List.cons_append, List.lookup, hbeq]
    apply ih
    intro hcon
    apply h
    simp only [List.lookup, hbeq]
    exact hcon

theorem pyDictSet_lookup_self (m : List (String × Job)) (k : String) (v : Job) :
    (pyDictSet m k v).lookup k = some v := by
  unfold pyDictSet
  by_cases h : (m.lookup k).isSome
  · rw [if_pos h]
    exact lookup_map_set k v m h
  · rw [if_neg h]
    exact lookup_append_set k v m h

theorem initial_InvAt (jobs0 : List (String × Job)) (jid t0 : String) :
    InvAt jid 10 ⟨start_processing_job jobs0 jid t0, []⟩ := by
  refine ⟨by simp [runningWrites], by simp [runningWrites], ?_⟩
  intro j hj
  unfold start_processing_job at hj
  rw [pyDictSet_lookup_self] at hj
  cases hj
  intro hst
  rw [show (initial_job t0).status = "starting" from rfl] at hst
  exact absurd hst (by decide)

/-! ## C3: progress monotonicity while running -/

/-- C3: over any job run (any outcomes of the collaborators), the sequence
of progress values actually written to the job record with status
`"running"` is monotonically non-decreasing. -/
theorem progress_monotone_while_running {Raw : Type} (env : SchedulerEnv Raw)
    (jobs0 : List (String × Job)) (jid t0 : String) :
    (runningWrites (process_emails_async env
      ⟨start_processing_job jobs0 jid t0, []⟩ jid)).Chain' (· ≤ ·) := by
  obtain ⟨c, hc⟩ := process_emails_async_inv env
    ⟨start_processing_job jobs0 jid t0, []⟩ jid (initial_InvAt jobs0 jid t0)
  exact hc.1

/-! ## C1: a failing batch fails the whole job -/

/-- C1 (documents the code bug): run one job over a single relevant email
(classified definitely-financial) whose batch task fails.  The scheduler's
"non-fatal" warning update calls `_update_job(job_id, "running", None, ...)`,
whose `round(None, 1)` raises `TypeError`; that exception escapes to the
outer handler, which marks the whole job `"failed"` with the `TypeError`
message as its error.  The job does not stay on course for `Completed`, and
the batch error is never recorded as a warning update. -/
theorem batch_failure_fails_job :
    (((process_emails_async
        { fetch := .ok [⟨"e1", "0", "alerts@bank.example", "statement", "body"⟩]
          parse := fun e => .ok e
          search := fun p _ =>
            p == "\\b(statement|monthly statement|billing statement|card statement)\\b"
          batchOutcome := fun _ _ => .error "Batch 0 processing failed: boom"
          strptimeMonth := fun _ => none
          now := "t1" }
        ⟨start_processing_job [] "job1" "t0", []⟩ "job1").jobs.lookup
          "job1").map (fun j => (j.status, j.error)))
      = some ("failed", some round_none_error) := by
  with_unfolding_all rfl

/-! ## C8: the progress stream -/

theorem snapshotProgresses_append (l1 l2 : List StreamItem) :
    snapshotProgresses (l1 ++ l2)
      = snapshotProgresses l1 ++ snapshotProgresses l2 := by
  simp [snapshotProgresses, List.filterMap_append]

theorem stream_progress_chain :
    ∀ (obs : List (Option Job)) (last : ℚ),
      (last :: snapshotProgresses (get_job_stream obs last)).Chain' (· ≠ ·) := by
  intro obs
  induction obs with
  | nil =>
    intro last
    simp [get_job_stream, snapshotProgresses]
  | cons ob rest ih =>
    intro last
    cases ob with
    | none =>
      simp [get_job_stream, snapshotProgresses]
    | some job =>
      simp only [get_job_stream]
      by_cases hterm : job.status = "completed" ∨ job.status = "failed"
      · rw [if_pos hterm]
        by_cases hp : job.progress ≠ last
        · rw [if_pos hp]
          rcases hterm with hc | hf
          · rw [if_pos hc]
            cases job.results with
            | some r =>
              simp [snapshotProgresses]
              exact Ne.symm hp
            | none =>
              simp [snapshotProgresses]
              exact Ne.symm hp
          · by_cases hc : job.status = "completed"
            · rw [if_pos hc]
              cases job.results with
              | some r =>
                simp [snapshotProgresses]
                exact Ne.symm hp
              | none =>
                simp [snapshotProgresses]
                exact Ne.symm hp
            · rw [if_neg hc]
              simp [snapshotProgresses]
              exact Ne.symm hp
        · rw [if_neg hp]
          by_cases hc : job.status = "completed"
          · rw [if_pos hc]
            cases job.results with
            | some r => simp [snapshotProgresses]
            | none => simp [snapshotProgresses]
          · rw [if_neg hc]
            simp [snapshotProgresses]
      · rw [if_neg hterm]
        by_cases hp : job.progress ≠ last
        · rw [if_pos hp, if_pos hp]
          rw [List.cons_append, List.nil_append, snapshotProgresses]
          simp only [snapshotProgresses, List.filterMap_cons]
          rw [List.chain'_cons]
          exact ⟨Ne.symm hp, ih job.progress⟩
        · rw [if_neg hp, if_neg hp]
          rw [List.nil_append]
          exact ih last

/-- C8: the stream (as a function of the snapshots seen at its successive
polls) emits a single "Job not found" item for an unknown id and stops;
while the job is live it emits a snapshot exactly when the progress differs
from the last emitted value and keeps polling; on a terminal snapshot it
emits the final payload — results for `Completed` (every completed job the
scheduler produces carries results: last conjunct), the error for `Failed`
— and stops; and consecutive emitted snapshots always differ in
progress. -/
theorem get_job_stream_spec (job : Job) (rest obs : List (Option Job))
    (last : ℚ) :
    get_job_stream (none :: rest) last = [.errorPayload "Job not found"]
    ∧ (job.status ≠ "completed" → job.status ≠ "failed" →
        get_job_stream (some job :: rest) last =
          (if job.progress = last then []
           else [.snapshot job.status job.progress job.current_step
              job.updated_at])
          ++ get_job_stream rest
              (if job.progress = last then last else job.progress))
    ∧ (∀ r, job.status = "completed" → job.results = some r →
        get_job_stream (some job :: rest) last =
          (if job.progress = last then []
           else [.snapshot job.status job.progress job.current_step
              job.updated_at])
          ++ [.resultsPayload r])
    ∧ (job.status = "failed" →
        get_job_stream (some job :: rest) last =
          (if job.progress = last then []
           else [.snapshot job.status job.progress job.current_step
              job.updated_at])
          ++ [.errorPayload (job.error.getD "Unknown error")])
    ∧ (last :: snapshotProgresses (get_job_stream obs last)).Chain' (· ≠ ·)
    ∧ (∀ {Raw : Type} (env : SchedulerEnv Raw) (jobs0 : List (String × Job))
        (jid t0 : String) (j : Job),
        (process_emails_async env ⟨start_processing_job jobs0 jid t0, []⟩
          jid).jobs.lookup jid = some j →
        j.status = "completed" → j.results.isSome) := by
  refine ⟨rfl, ?_, ?_, ?_, stream_progress_chain obs last, ?_⟩
  · intro h1 h2
    simp only [get_job_stream]
    rw [if_neg (by simp [h1, h2])]
    by_cases hp : job.progress = last
    · rw [if_neg (by simp [hp]), if_neg (by simp [hp]), if_pos hp, if_pos hp]
    · rw [if_pos (by simp [hp]), if_pos (by simp [hp]), if_neg hp, if_neg hp]
  · intro r h1 h3
    simp only [get_job_stream]
    rw [if_pos (Or.inl h1), if_pos h1, h3]
    by_cases hp : job.progress = last
    · rw [if_neg (by simp [hp]), if_pos hp]
    · rw [if_pos (by simp [hp]), if_neg hp]
  · intro h1
    simp only [get_job_stream]
    have hnc : job.status ≠ "completed" := by rw [h1]; decide
    rw [if_pos (Or.inr h1), if_neg hnc]
    by_cases hp : job.progress = last
    · rw [if_neg (by simp [hp]), if_pos hp]
    · rw [if_pos (by simp [hp]), if_neg hp]
  · intro Raw env jobs0 jid t0 j hj hst
    obtain ⟨c, hc⟩ := process_emails_async_inv env
      ⟨start_processing_job jobs0 jid t0, []⟩ jid (initial_InvAt jobs0 jid t0)
    exact hc.2.2 j hj hst

/-- Witness for C8 at a concrete running job polled once with the initial
`last_progress = -1`: one snapshot is emitted and polling continues. -/
theorem get_job_stream_spec_witness :
    get_job_stream
        [some ⟨"running", 10, 0, "step", "t0", none, none, some "t1"⟩] (-1)
      = (if (10 : ℚ) = -1 then []
         else [.snapshot "running" 10 "step" (some "t1")])
        ++ get_job_stream [] (if (10 : ℚ) = -1 then -1 else 10) :=
  (get_job_stream_spec ⟨"running", 10, 0, "step", "t0", none, none, some "t1"⟩
    [] [] (-1)).2.1 (by decide) (by decide)

end FinEmails
